/-
  Verification of the KiddoLand Platform API against its specification.

  The Python sources are shallowly embedded: Python strings are lists of
  Unicode code points (List Nat), bytes objects are lists of byte values
  (List Nat, each < 256), regular-expression searches are compiled by hand
  into equivalent scanning functions, and the stateful parts (user stores,
  the document store, the upstream completion endpoint) are passed
  explicitly as parameters.  Character-class semantics (word characters,
  digits, whitespace, lower/upper case) are modelled over the ASCII range,
  which covers every string the repository manipulates.
-/
import Mathlib

set_option maxRecDepth 4000

namespace KiddoLand

/-! ## Python string basics -/

/-- A Python str, as its list of Unicode code points. -/
abbrev PyStr := List Nat

/-- Convert a Lean string literal to a PyStr. -/
def pyStr (s : String) : PyStr := s.data.map Char.toNat

/-- Python str.isspace / str.strip whitespace, ASCII range. -/
def pyIsSpaceCp (c : Nat) : Bool :=
  c == 32 || c == 9 || c == 10 || c == 11 || c == 12 || c == 13 ||
  c == 28 || c == 29 || c == 30 || c == 31

/-- Whitespace class of the re module (ASCII range). -/
def reWsCp (c : Nat) : Bool :=
  c == 32 || c == 9 || c == 10 || c == 13 || c == 12 || c == 11

/-- Word-character class of the re module (ASCII range): letters, digits, underscore. -/
def isWordCp (c : Nat) : Bool :=
  (65 ≤ c && c ≤ 90) || (97 ≤ c && c ≤ 122) || (48 ≤ c && c ≤ 57) || c == 95

/-- ASCII decimal digit. -/
def isDigitCp (c : Nat) : Bool := 48 ≤ c && c ≤ 57

/-- ASCII letter. -/
def isAlphaCp (c : Nat) : Bool := (65 ≤ c && c ≤ 90) || (97 ≤ c && c ≤ 122)

/-- Python str.lower on one code point (ASCII range). -/
def toLowerCp (c : Nat) : Nat := if 65 ≤ c && c ≤ 90 then c + 32 else c

/-- Python str.upper on one code point (ASCII range). -/
def toUpperCp (c : Nat) : Nat := if 97 ≤ c && c ≤ 122 then c - 32 else c

/-- Python str.lower. -/
def pyLower (s : PyStr) : PyStr := s.map toLowerCp

/-- Python str.strip with no arguments. -/
def pyStrip (s : PyStr) : PyStr :=
  ((s.dropWhile pyIsSpaceCp).reverse.dropWhile pyIsSpaceCp).reverse

/-- Python str.strip with an explicit character set. -/
def pyStripChars (chars : List Nat) (s : PyStr) : PyStr :=
  ((s.dropWhile chars.contains).reverse.dropWhile chars.contains).reverse

/-- Case-insensitive comparison of two code points (re.IGNORECASE, ASCII range). -/
def eqCI (a b : Nat) : Bool := toLowerCp a == toLowerCp b

/-! ## Safety filter (src/utils/safety_filter.py) -/

/-- The UNSAFE_KEYWORDS denylist: each entry of the Python list is an
alternation of literal words wrapped in word boundaries, modelled as the
list of its alternatives. -/
def UNSAFE_KEYWORDS : List (List PyStr) :=
  [ [pyStr "murder", pyStr "kill", pyStr "blood", pyStr "gore", pyStr "torture",
     pyStr "weapon", pyStr "gun", pyStr "knife", pyStr "stab", pyStr "shoot"],
    [pyStr "sex", pyStr "sexual", pyStr "naked", pyStr "nude", pyStr "porn",
     pyStr "explicit"],
    [pyStr "fuck", pyStr "shit", pyStr "bitch", pyStr "damn", pyStr "hell",
     pyStr "ass", pyStr "crap"],
    [pyStr "suicide", pyStr "drug", pyStr "alcohol", pyStr "cigarette", pyStr "abuse"] ]

/-- Does the literal word w occur in s starting at index i, with a word
boundary on both sides?  All denylist words consist of word characters,
so the boundary tests reduce to the neighbouring characters being absent
or non-word. -/
def matchWordAt (s : PyStr) (i : Nat) (w : PyStr) : Bool :=
  ((s.drop i).take w.length == w) &&
  (i == 0 || !isWordCp (s.getD (i - 1) 0)) &&
  (s.length ≤ i + w.length || !isWordCp (s.getD (i + w.length) 0))

/-- re.search for a word-boundary alternation of literal words. -/
def searchWholeWord (ws : List PyStr) (s : PyStr) : Bool :=
  (List.range (s.length + 1)).any (fun i => ws.any (matchWordAt s i))

/-- is_content_safe from src/utils/safety_filter.py: true on empty or
whitespace-only text, otherwise lower-cases the text and returns false
exactly when some denylist pattern matches. -/
def is_content_safe (text : PyStr) : Bool :=
  if pyStrip text == [] then true
  else
    let textLower := pyLower text
    !(UNSAFE_KEYWORDS.any (fun ws => searchWholeWord ws textLower))

/-- Replace each maximal whitespace run with a single space, which is
emitted at the start of the run; the flag records whether the scanner is
inside a run. -/
def collapseWsAux (inRun : Bool) : PyStr → PyStr
  | [] => []
  | c :: rest =>
      if reWsCp c then
        if inRun then collapseWsAux true rest
        else 32 :: collapseWsAux true rest
      else c :: collapseWsAux false rest

/-- re.sub of a whitespace run with a single space. -/
def collapseWs (s : PyStr) : PyStr := collapseWsAux false s

/-- clean_text_for_model from src/utils/safety_filter.py. -/
def clean_text_for_model (text : PyStr) : PyStr :=
  pyStrip (collapseWs (text.map (fun c => if c ≤ 31 || c == 127 then 32 else c)))

/-! ## Regex scanning helpers

The extraction regexes of safety_filter.py and routers/ai.py are compiled
by hand.  A pattern is a function from the remaining input to an optional
capture; re.search is a left-to-right scan that attempts the pattern at
each position whose left context satisfies the leading word boundary
(every pattern here starts with a word character, so the boundary holds
exactly when the previous character is absent or not a word character). -/

/-- Return the first successful application of f along the list. -/
def firstSome? {α β : Type} : List α → (α → Option β) → Option β
  | [], _ => none
  | a :: t, f =>
      match f a with
      | some b => some b
      | none => firstSome? t f

/-- Leftmost re.search scan for a pattern whose first character is a word
character; prevWord records whether the previous character was a word
character (word-boundary test). -/
def scanPat {α : Type} (pat : PyStr → Option α) : Bool → PyStr → Option α
  | _, [] => none
  | prevWord, c :: cs =>
      match (if prevWord then none else pat (c :: cs)) with
      | some r => some r
      | none => scanPat pat (isWordCp c) cs

/-- Consume a case-insensitive literal, returning the rest. -/
def litCI : PyStr → PyStr → Option PyStr
  | [], l => some l
  | _ :: _, [] => none
  | w :: ws, c :: cs => if eqCI w c then litCI ws cs else none

/-- One-or-more whitespace followed by a non-whitespace token: the
whitespace run is consumed maximally, which is exact because every
continuation in the source patterns begins with a letter or digit. -/
def wsPlus (l : PyStr) : Option PyStr :=
  match l with
  | [] => none
  | c :: cs => if reWsCp c then some (cs.dropWhile reWsCp) else none

/-- Word-boundary test after a word character: the next character must be
absent or not a word character. -/
def bAfterWord (l : PyStr) : Bool :=
  match l with
  | [] => true
  | c :: _ => !isWordCp c

/-! ## Child-name extraction (extract_child_name, src/utils/safety_filter.py) -/

/-- Character class of the name capture tail: letters, apostrophe, hyphen. -/
def nameClassCp (c : Nat) : Bool := isAlphaCp c || c == 39 || c == 45

/-- Word-boundary test after the last captured character, which may be a
non-word character (apostrophe or hyphen). -/
def bAfterAny (last : Nat) (l : PyStr) : Bool :=
  match l with
  | [] => isWordCp last
  | c :: _ => isWordCp last != isWordCp c

/-- Greedy backtracking for the capture tail of length n down to 1,
stopping at the first length whose trailing word boundary holds. -/
def nameTokLens (c : Nat) (rest : PyStr) : Nat → Option (PyStr × PyStr)
  | 0 => none
  | Nat.succ k =>
      let cand := c :: rest.take (k + 1)
      let after := rest.drop (k + 1)
      if bAfterAny (cand.getLastD 0) after then some (cand, after)
      else nameTokLens c rest k

/-- The capture group of the name patterns: a letter followed greedily by
one to thirty name-class characters, with a trailing word boundary. -/
def nameTokAt (l : PyStr) : Option (PyStr × PyStr) :=
  match l with
  | [] => none
  | c :: rest =>
      if !isAlphaCp c then none
      else nameTokLens c rest (min 30 (rest.takeWhile nameClassCp).length)

/-- The son/daughter/kid/child alternation. -/
def kidAlt (l : PyStr) : Option PyStr :=
  match litCI (pyStr "son") l with
  | some r => some r
  | none =>
    match litCI (pyStr "daughter") l with
    | some r => some r
    | none =>
      match litCI (pyStr "kid") l with
      | some r => some r
      | none => litCI (pyStr "child") l

/-- Pattern: named X. -/
def p1Name (l : PyStr) : Option PyStr :=
  litCI (pyStr "named") l >>= wsPlus >>= fun r => (nameTokAt r).map Prod.fst

/-- Pattern: called X. -/
def p2Name (l : PyStr) : Option PyStr :=
  litCI (pyStr "called") l >>= wsPlus >>= fun r => (nameTokAt r).map Prod.fst

/-- Pattern: name is X. -/
def p3Name (l : PyStr) : Option PyStr :=
  litCI (pyStr "name") l >>= wsPlus >>= litCI (pyStr "is") >>= wsPlus >>=
    fun r => (nameTokAt r).map Prod.fst

/-- Pattern: son/daughter/kid/child named X. -/
def p4Name (l : PyStr) : Option PyStr :=
  kidAlt l >>= wsPlus >>= litCI (pyStr "named") >>= wsPlus >>=
    fun r => (nameTokAt r).map Prod.fst

/-- Pattern: son/daughter/kid/child X. -/
def p5Name (l : PyStr) : Option PyStr :=
  kidAlt l >>= wsPlus >>= fun r => (nameTokAt r).map Prod.fst

/-- Pattern: for X. -/
def p6Name (l : PyStr) : Option PyStr :=
  litCI (pyStr "for") l >>= wsPlus >>= fun r => (nameTokAt r).map Prod.fst

/-- The stopword set of extract_child_name. -/
def DISALLOWED : List PyStr :=
  [pyStr "a", pyStr "an", pyStr "the", pyStr "my", pyStr "our", pyStr "your",
   pyStr "their", pyStr "kid", pyStr "child", pyStr "son", pyStr "daughter",
   pyStr "boy", pyStr "girl", pyStr "story", pyStr "age", pyStr "years",
   pyStr "year", pyStr "old"]

/-- Python str.capitalize: first character uppercased, the rest lowercased. -/
def pyCapitalize (s : PyStr) : PyStr :=
  match s with
  | [] => []
  | c :: rest => toUpperCp c :: rest.map toLowerCp

/-- Attempt one name pattern on the cleaned text: take the first match,
trim surrounding hyphens and apostrophes, require length at least two and
a non-stopword, else fall through to the continuation. -/
def tryNamePat (pat : PyStr → Option PyStr) (cleaned : PyStr) (k : Option PyStr) :
    Option PyStr :=
  match scanPat pat false cleaned with
  | none => k
  | some cap =>
      let cand := pyStripChars [45, 39] cap
      if cand.length < 2 then k
      else if DISALLOWED.contains (pyLower cand) then k
      else some (pyCapitalize cand)

/-- extract_child_name from src/utils/safety_filter.py. -/
def extract_child_name (text : PyStr) : Option PyStr :=
  let cleaned := clean_text_for_model text
  if cleaned == [] then none
  else
    tryNamePat p1Name cleaned (tryNamePat p2Name cleaned (tryNamePat p3Name cleaned
      (tryNamePat p4Name cleaned (tryNamePat p5Name cleaned
        (tryNamePat p6Name cleaned none)))))

/-! ## Age extraction (_extract_age_from_prompt, src/routers/ai.py) -/

/-- Numeric value of a digit code point. -/
def digitVal (c : Nat) : Nat := c - 48

/-- Greedy one-or-two digit capture: candidate values with their rests, the
two-digit reading first. -/
def digits12 : PyStr → List (Nat × PyStr)
  | a :: b :: r =>
      if isDigitCp a && isDigitCp b then
        [(digitVal a * 10 + digitVal b, r), (digitVal a, b :: r)]
      else if isDigitCp a then [(digitVal a, b :: r)]
      else []
  | [a] => if isDigitCp a then [(digitVal a, [])] else []
  | [] => []

/-- The separator gap of the hyphenated age pattern: zero-or-more
whitespace, one hyphen or space, zero-or-more whitespace.  The following
literal starts with a letter, so a match exists exactly when the maximal
run of whitespace-or-hyphen characters contains exactly one hyphen, or no
hyphen and at least one space. -/
def sepGapOk (l : PyStr) : Option PyStr :=
  let run := l.takeWhile (fun c => reWsCp c || c == 45)
  if (run.count 45 == 1) || (run.count 45 == 0 && run.contains 32) then
    some (l.drop run.length)
  else none

/-- Age pattern 1: N-year-old with hyphen-or-space separators. -/
def p1Age (l : PyStr) : Option Nat :=
  firstSome? (digits12 l) fun vr =>
    sepGapOk vr.2 >>= litCI (pyStr "year") >>= sepGapOk >>= litCI (pyStr "old") >>=
      fun r4 => if bAfterWord r4 then some vr.1 else none

/-- The years-old alternation without the y/o branch: years?-ws-old, with
the redundant year-ws-old branch of the source subsumed. -/
def yearsOldAlt (l : PyStr) : Option PyStr :=
  litCI (pyStr "year") l >>= fun r =>
    match litCI (pyStr "s") r >>= fun r2 => litCI (pyStr "old") (r2.dropWhile reWsCp) with
    | some r3 => some r3
    | none => litCI (pyStr "old") (r.dropWhile reWsCp)

/-- The full alternation of age pattern 2: years?-ws-old, yr-ws-old, y/o. -/
def yearAlt (l : PyStr) : Option PyStr :=
  match yearsOldAlt l with
  | some r => some r
  | none =>
    match litCI (pyStr "yr") l >>= fun r => litCI (pyStr "old") (r.dropWhile reWsCp) with
    | some r => some r
    | none => litCI (pyStr "y/o") l

/-- Age pattern 2: N years old / N yr old / N y/o. -/
def p2Age (l : PyStr) : Option Nat :=
  firstSome? (digits12 l) fun vr =>
    yearAlt (vr.2.dropWhile reWsCp) >>= fun r2 =>
      if bAfterWord r2 then some vr.1 else none

/-- Age pattern 3: age N. -/
def p3Age (l : PyStr) : Option Nat :=
  litCI (pyStr "age") l >>= fun r =>
    firstSome? (digits12 (r.dropWhile reWsCp)) fun vr =>
      if bAfterWord vr.2 then some vr.1 else none

/-- Tail of age pattern 4 after the digits: optional whitespace, optional
years-old group, then a word boundary, with the whitespace run backtracked
greedily from longest to empty. -/
def p4Tail (v : Nat) (r : PyStr) : Option Nat :=
  let run := r.takeWhile reWsCp
  firstSome? (List.range (run.length + 1)).reverse fun k =>
    let r2 := r.drop k
    match yearsOldAlt r2 >>= fun r3 => if bAfterWord r3 then some v else none with
    | some w => some w
    | none =>
        if k == 0 then (if bAfterWord r2 then some v else none)
        else
          match r2 with
          | c :: _ => if isWordCp c then some v else none
          | [] => none

/-- Age pattern 4: for N, with an optional years-old suffix. -/
def p4Age (l : PyStr) : Option Nat :=
  litCI (pyStr "for") l >>= wsPlus >>= fun r =>
    firstSome? (digits12 r) fun vr => p4Tail vr.1 vr.2

/-- The accepted age range of the router. -/
def inAgeRange (v : Nat) : Bool := 1 ≤ v && v ≤ 10

/-- Attempt one age pattern: take its first match; if the captured value is
out of range fall through to the continuation. -/
def tryAgePat (pat : PyStr → Option Nat) (prompt : PyStr) (k : Option Nat) : Option Nat :=
  match scanPat pat false prompt with
  | some v => if inAgeRange v then some v else k
  | none => k

/-- The age extractor of src/routers/ai.py. -/
def extract_age_from_prompt (prompt : PyStr) : Option Nat :=
  tryAgePat p1Age prompt (tryAgePat p2Age prompt (tryAgePat p3Age prompt
    (tryAgePat p4Age prompt none)))

/-! ## SHA-256, HMAC-SHA256, PBKDF2 (hashlib / hmac as used by auth_service) -/

/-- Two to the thirty-second power. -/
def M32 : Nat := 4294967296

/-- Rotate a 32-bit word right by n bits. -/
def rotr32 (n x : Nat) : Nat := ((x >>> n) ||| (x <<< (32 - n))) % M32

/-- The SHA-256 round constants. -/
def shaK : List Nat :=
  [1116352408, 1899447441, 3049323471, 3921009573,
   961987163, 1508970993, 2453635748, 2870763221,
   3624381080, 310598401, 607225278, 1426881987,
   1925078388, 2162078206, 2614888103, 3248222580,
   3835390401, 4022224774, 264347078, 604807628,
   770255983, 1249150122, 1555081692, 1996064986,
   2554220882, 2821834349, 2952996808, 3210313671,
   3336571891, 3584528711, 113926993, 338241895,
   666307205, 773529912, 1294757372, 1396182291,
   1695183700, 1986661051, 2177026350, 2456956037,
   2730485921, 2820302411, 3259730800, 3345764771,
   3516065817, 3600352804, 4094571909, 275423344,
   430227734, 506948616, 659060556, 883997877,
   958139571, 1322822218, 1537002063, 1747873779,
   1955562222, 2024104815, 2227730452, 2361852424,
   2428436474, 2756734187, 3204031479, 3329325298]

/-- The SHA-256 initial hash state. -/
def shaH0 : List Nat :=
  [1779033703, 3144134277, 1013904242, 2773480762,
   1359893119, 2600822924, 528734635, 1541459225]

/-- Big-endian eight-byte encoding. -/
def be64 (n : Nat) : List Nat :=
  [n >>> 56 % 256, n >>> 48 % 256, n >>> 40 % 256, n >>> 32 % 256,
   n >>> 24 % 256, n >>> 16 % 256, n >>> 8 % 256, n % 256]

/-- SHA-256 message padding. -/
def shaPad (msg : List Nat) : List Nat :=
  msg ++ 128 :: List.replicate ((119 - msg.length % 64) % 64) 0 ++ be64 (8 * msg.length)

/-- Split into 32-bit big-endian words. -/
def toWords : List Nat → List Nat
  | a :: b :: c :: d :: rest => (((a * 256 + b) * 256 + c) * 256 + d) :: toWords rest
  | _ => []

/-- Split into 64-byte chunks, with explicit fuel so the definition reduces
in the kernel. -/
def chunks64Fuel : Nat → List Nat → List (List Nat)
  | 0, _ => []
  | _, [] => []
  | Nat.succ fuel, l => l.take 64 :: chunks64Fuel fuel (l.drop 64)

/-- Split into 64-byte chunks. -/
def chunks64 (l : List Nat) : List (List Nat) := chunks64Fuel l.length l

/-- Message-schedule sigma functions. -/
def smallSigma0 (x : Nat) : Nat := rotr32 7 x ^^^ rotr32 18 x ^^^ (x >>> 3)

/-- Message-schedule sigma functions. -/
def smallSigma1 (x : Nat) : Nat := rotr32 17 x ^^^ rotr32 19 x ^^^ (x >>> 10)

/-- Extend the sixteen message words by the given number of schedule words. -/
def schedExtend : List Nat → Nat → List Nat
  | w, 0 => w
  | w, Nat.succ k =>
      let n := w.length
      schedExtend
        (w ++ [(w.getD (n - 16) 0 + smallSigma0 (w.getD (n - 15) 0) +
                w.getD (n - 7) 0 + smallSigma1 (w.getD (n - 2) 0)) % M32]) k

/-- Compression sigma functions. -/
def bigSigma0 (x : Nat) : Nat := rotr32 2 x ^^^ rotr32 13 x ^^^ rotr32 22 x

/-- Compression sigma functions. -/
def bigSigma1 (x : Nat) : Nat := rotr32 6 x ^^^ rotr32 11 x ^^^ rotr32 25 x

/-- The choose function. -/
def chF (x y z : Nat) : Nat := (x &&& y) ^^^ ((x ^^^ 4294967295) &&& z)

/-- The majority function. -/
def majF (x y z : Nat) : Nat := (x &&& y) ^^^ (x &&& z) ^^^ (y &&& z)

/-- The sixty-four compression rounds. -/
def compressRounds : List Nat → List Nat → List Nat → List Nat
  | k :: ks, w :: ws, [a, b, c, d, e, f, g, h] =>
      let t1 := (h + bigSigma1 e + chF e f g + k + w) % M32
      let t2 := (bigSigma0 a + majF a b c) % M32
      compressRounds ks ws [(t1 + t2) % M32, a, b, c, (d + t1) % M32, e, f, g]
  | _, _, st => st

/-- Process one 64-byte chunk. -/
def sha256Compress (state chunk : List Nat) : List Nat :=
  let st2 := compressRounds shaK (schedExtend (toWords chunk) 48) state
  (state.zip st2).map (fun p => (p.1 + p.2) % M32)

/-- Serialize words back to big-endian bytes. -/
def wordsToBytes : List Nat → List Nat
  | [] => []
  | w :: ws => w >>> 24 % 256 :: w >>> 16 % 256 :: w >>> 8 % 256 :: w % 256 :: wordsToBytes ws

/-- SHA-256 of a byte string. -/
def sha256 (msg : List Nat) : List Nat :=
  wordsToBytes ((chunks64 (shaPad msg)).foldl sha256Compress shaH0)

/-- HMAC-SHA256 as in the hmac module: keys longer than the 64-byte block
are hashed, shorter ones zero-padded. -/
def hmacSha256 (key msg : List Nat) : List Nat :=
  let k0 := if 64 < key.length then sha256 key else key
  let k := k0 ++ List.replicate (64 - k0.length) 0
  sha256 ((k.map (fun b => b ^^^ 92)) ++ sha256 ((k.map (fun b => b ^^^ 54)) ++ msg))

/-- The xor-accumulation loop of PBKDF2. -/
def pbkdf2Loop (pw : List Nat) : List Nat → List Nat → Nat → List Nat
  | _, acc, 0 => acc
  | u, acc, Nat.succ k =>
      let u2 := hmacSha256 pw u
      pbkdf2Loop pw u2 ((acc.zip u2).map fun p => p.1 ^^^ p.2) k

/-- PBKDF2-HMAC-SHA256 with a single 32-byte output block, as produced by
hashlib.pbkdf2_hmac for the default digest length. -/
def pbkdf2HmacSha256 (password salt : List Nat) (iterations : Nat) : List Nat :=
  let u1 := hmacSha256 password (salt ++ [0, 0, 0, 1])
  pbkdf2Loop password u1 u1 (iterations - 1)

/-- UTF-8 encoding of one code point. -/
def utf8EncodeCp (c : Nat) : List Nat :=
  if c < 128 then [c]
  else if c < 2048 then [192 + c / 64, 128 + c % 64]
  else if c < 65536 then [224 + c / 4096, 128 + c / 64 % 64, 128 + c % 64]
  else [240 + c / 262144, 128 + c / 4096 % 64, 128 + c / 64 % 64, 128 + c % 64]

/-- Python str.encode with utf-8. -/
def utf8Encode (s : PyStr) : List Nat :=
  s.foldr (fun c acc => utf8EncodeCp c ++ acc) []

/-- hash_password of src/utils/auth_service.py: PBKDF2-HMAC-SHA256 over the
utf-8 encoded password with one hundred thousand iterations. -/
def hash_password (password : PyStr) (salt : List Nat) : List Nat :=
  pbkdf2HmacSha256 (utf8Encode password) salt 100000

/-! ## base64url (base64 module as used by auth_service) -/

/-- The urlsafe base64 alphabet. -/
def b64urlChar (n : Nat) : Nat :=
  if n < 26 then 65 + n
  else if n < 52 then 97 + (n - 26)
  else if n < 62 then 48 + (n - 52)
  else if n == 62 then 45
  else 95

/-- Encode three-byte groups, emitting standard padding. -/
def b64EncGroups : List Nat → List Nat
  | a :: b :: c :: rest =>
      b64urlChar (a / 4) :: b64urlChar (a % 4 * 16 + b / 16) ::
      b64urlChar (b % 16 * 4 + c / 64) :: b64urlChar (c % 64) :: b64EncGroups rest
  | [a, b] => [b64urlChar (a / 4), b64urlChar (a % 4 * 16 + b / 16), b64urlChar (b % 16 * 4), 61]
  | [a] => [b64urlChar (a / 4), b64urlChar (a % 4 * 16), 61, 61]
  | [] => []

/-- b64url_encode of src/utils/auth_service.py: urlsafe encoding with the
padding stripped. -/
def b64urlEncodeNoPad (bs : List Nat) : PyStr :=
  ((b64EncGroups bs).reverse.dropWhile (· == 61)).reverse

/-- Decoding table of the standard base64 alphabet. -/
def b64Val (c : Nat) : Option Nat :=
  if 65 ≤ c && c ≤ 90 then some (c - 65)
  else if 97 ≤ c && c ≤ 122 then some (c - 97 + 26)
  else if 48 ≤ c && c ≤ 57 then some (c - 48 + 52)
  else if c == 43 then some 62
  else if c == 47 then some 63
  else none

/-- The binascii a2b_base64 state machine in non-strict mode: invalid
characters are skipped, padding that completes a quantum ends the decode,
and a dangling quantum at the end of input is an error.  The state is the
position within the current quantum, the carried bits, and the count of
consecutive padding characters. -/
def a2bBase64 : List Nat → Nat → Nat → Nat → List Nat → Option (List Nat)
  | [], qp, _, _, out => if qp == 0 then some out else none
  | c :: rest, qp, lc, pads, out =>
      if c == 61 then
        if 2 ≤ qp then
          if 4 ≤ qp + (pads + 1) then some out
          else a2bBase64 rest qp lc (pads + 1) out
        else a2bBase64 rest qp lc pads out
      else
        match b64Val c with
        | none => a2bBase64 rest qp lc pads out
        | some v =>
            match qp with
            | 0 => a2bBase64 rest 1 v 0 out
            | 1 => a2bBase64 rest 2 (v % 16) 0 (out ++ [lc * 4 + v / 16])
            | 2 => a2bBase64 rest 3 (v % 4) 0 (out ++ [lc * 16 + v / 4])
            | _ => a2bBase64 rest 0 0 0 (out ++ [lc * 64 + v])

/-- The urlsafe-to-standard alphabet translation of urlsafe_b64decode. -/
def urlTrans (c : Nat) : Nat := if c == 45 then 43 else if c == 95 then 47 else c

/-- b64url_decode of src/utils/auth_service.py: re-pad based on the raw
length, translate the urlsafe alphabet to the standard one, and decode.
A non-ASCII argument makes the base64 module raise ValueError, modelled
as a failure. -/
def b64urlDecode (s : PyStr) : Option (List Nat) :=
  if !(s.all (fun c => c ≤ 127)) then none
  else
    let padded := s ++ List.replicate ((4 - s.length % 4) % 4) 61
    a2bBase64 (padded.map urlTrans) 0 0 0 []

/-- The unpadded base64url encoding written directly by three-byte groups;
equal to b64urlEncodeNoPad, which follows the source in encoding with
padding and stripping it. -/
def encNoPadDirect : List Nat → List Nat
  | a :: b :: c :: rest =>
      b64urlChar (a / 4) :: b64urlChar (a % 4 * 16 + b / 16) ::
      b64urlChar (b % 16 * 4 + c / 64) :: b64urlChar (c % 64) :: encNoPadDirect rest
  | [a, b] => [b64urlChar (a / 4), b64urlChar (a % 4 * 16 + b / 16), b64urlChar (b % 16 * 4)]
  | [a] => [b64urlChar (a / 4), b64urlChar (a % 4 * 16)]
  | [] => []

/-- A Unicode scalar value: in range and not a surrogate.  Python strings
that round-trip through json.dumps and json.loads are exactly those whose
code points are scalar values, since the parser recombines the surrogate
pairs the serializer emits. -/
def validScalarCp (c : Nat) : Prop := c < 1114112 ∧ ¬(55296 ≤ c ∧ c ≤ 57343)

instance (c : Nat) : Decidable (validScalarCp c) := by
  unfold validScalarCp
  infer_instance

/-- The decimal value of a digit string, as the number scanner folds it. -/
def digitsValN (ds : PyStr) : Nat := ds.foldl (fun acc d => acc * 10 + (d - 48)) 0

/-! ## JSON values and the json module -/

/-- A Python JSON value.  Non-integral numeric literals are kept as an
exact decimal mantissa and power of ten; NaN and the infinities, which the
Python parser accepts, are separate constructors.  Python bools are ints,
which matters for the isinstance check on the expiry claim. -/
inductive JVal : Type
  | jnull
  | jbool (b : Bool)
  | jint (n : Int)
  | jfloat (mantissa : Int) (exp10 : Int)
  | jinf (pos : Bool)
  | jnan
  | jstr (s : PyStr)
  | jarr (xs : List JVal)
  | jobj (fields : List (PyStr × JVal))

/-- JSON whitespace of the json module. -/
def skipJWs (l : PyStr) : PyStr :=
  l.dropWhile (fun c => c == 32 || c == 9 || c == 10 || c == 13)

/-- Hexadecimal digit value. -/
def hexDigVal (c : Nat) : Option Nat :=
  if 48 ≤ c && c ≤ 57 then some (c - 48)
  else if 97 ≤ c && c ≤ 102 then some (c - 97 + 10)
  else if 65 ≤ c && c ≤ 70 then some (c - 65 + 10)
  else none

/-- Four hexadecimal digits. -/
def hex4Val (a b c d : Nat) : Option Nat :=
  match hexDigVal a, hexDigVal b, hexDigVal c, hexDigVal d with
  | some x, some y, some z, some w => some (((x * 16 + y) * 16 + z) * 16 + w)
  | _, _, _, _ => none

/-- After a uXXXX escape decoded to a high surrogate: when a uXXXX escape
with a low surrogate follows immediately, the pair is combined into one
code point; otherwise the high surrogate stands alone. -/
def jStrUPair (u : Nat) (r3 : PyStr) : Option (Nat × PyStr) :=
  match r3 with
  | 92 :: 117 :: g1 :: g2 :: g3 :: g4 :: r4 =>
      match hex4Val g1 g2 g3 g4 with
      | none => none
      | some u2 =>
          if 56320 ≤ u2 && u2 ≤ 57343 then
            some (65536 + (u - 55296) * 1024 + (u2 - 56320), r4)
          else some (u, r3)
  | _ => some (u, r3)

/-- The uXXXX escape: four hexadecimal digits, with surrogate-pair
combination. -/
def jStrU (r2 : PyStr) : Option (Nat × PyStr) :=
  match r2 with
  | h1 :: h2 :: h3 :: h4 :: r3 =>
      match hex4Val h1 h2 h3 h4 with
      | none => none
      | some u =>
          if 55296 ≤ u && u ≤ 56319 then jStrUPair u r3
          else some (u, r3)
  | _ => none

/-- One string escape after the backslash: the decoded code point and the
remaining input, or none for an invalid escape. -/
def jStrEscape (e : Nat) (r2 : PyStr) : Option (Nat × PyStr) :=
  if e == 34 then some (34, r2)
  else if e == 92 then some (92, r2)
  else if e == 47 then some (47, r2)
  else if e == 98 then some (8, r2)
  else if e == 102 then some (12, r2)
  else if e == 110 then some (10, r2)
  else if e == 114 then some (13, r2)
  else if e == 116 then some (9, r2)
  else if e == 117 then jStrU r2
  else none

/-- The string scanner of the json module in strict mode, after the opening
quote: raw control characters are rejected, the eight short escapes and
uXXXX escapes are decoded, and a high surrogate followed by a uXXXX low
surrogate is combined; a lone surrogate is kept as a code point. -/
def parseJStrBody : Nat → PyStr → PyStr → Option (PyStr × PyStr)
  | 0, _, _ => none
  | Nat.succ fuel, l, acc =>
      match l with
      | [] => none
      | c :: rest =>
          if c == 34 then some (acc.reverse, rest)
          else if c == 92 then
            match rest with
            | [] => none
            | e :: r2 =>
                match jStrEscape e r2 with
                | none => none
                | some ur => parseJStrBody fuel ur.2 (ur.1 :: acc)
          else if c < 32 then none
          else parseJStrBody fuel rest (c :: acc)

/-- The number regex of the json module applied at the start of the input:
an optional minus, an integer part without leading zeros, an optional
fraction, an optional exponent. -/
def parseJNum (l : PyStr) : Option (JVal × PyStr) :=
  let neg := l.headD 0 == 45
  let l1 := if neg then l.tail else l
  match l1 with
  | [] => none
  | c :: _ =>
      if !isDigitCp c then none
      else
        let intDigits := if c == 48 then [48] else l1.takeWhile isDigitCp
        let l2 := l1.drop intDigits.length
        let frac :=
          match l2 with
          | 46 :: r =>
              let f := r.takeWhile isDigitCp
              if f == [] then ([], l2) else (f, r.drop f.length)
          | _ => ([], l2)
        let fracDigits := frac.1
        let l3 := frac.2
        let ex :=
          match l3 with
          | e :: s :: r2 =>
              if e == 101 || e == 69 then
                if s == 43 || s == 45 then
                  let d := r2.takeWhile isDigitCp
                  if d == [] then none else some (s == 45, d, r2.drop d.length)
                else
                  let d := (s :: r2).takeWhile isDigitCp
                  if d == [] then none else some (false, d, (s :: r2).drop d.length)
              else none
          | _ => none
        let digitsVal := fun (ds : PyStr) => ds.foldl (fun acc d => acc * 10 + (d - 48)) 0
        let sgn : Int → Int := fun v => if neg then -v else v
        match ex with
        | none =>
            if fracDigits == [] then some (JVal.jint (sgn (digitsVal intDigits)), l3)
            else
              some (JVal.jfloat (sgn (digitsVal (intDigits ++ fracDigits)))
                (-(fracDigits.length : Int)), l3)
        | some est =>
            let esgn : Int := if est.1 then -(digitsVal est.2.1 : Int) else (digitsVal est.2.1 : Int)
            some (JVal.jfloat (sgn (digitsVal (intDigits ++ fracDigits)))
              (esgn - (fracDigits.length : Int)), est.2.2)

mutual

/-- The value scanner of the json module. -/
def parseJVal : Nat → PyStr → Option (JVal × PyStr)
  | 0, _ => none
  | Nat.succ fuel, l =>
      match l with
      | [] => none
      | c :: rest =>
          if c == 34 then
            (parseJStrBody (rest.length + 1) rest []).map (fun p => (JVal.jstr p.1, p.2))
          else if c == 123 then
            match skipJWs rest with
            | 125 :: r2 => some (JVal.jobj [], r2)
            | r2 => parseJObjEntry fuel r2 []
          else if c == 91 then
            match skipJWs rest with
            | 93 :: r2 => some (JVal.jarr [], r2)
            | r2 => parseJArrItem fuel r2 []
          else if l.take 4 == pyStr "null" then some (JVal.jnull, l.drop 4)
          else if l.take 4 == pyStr "true" then some (JVal.jbool true, l.drop 4)
          else if l.take 5 == pyStr "false" then some (JVal.jbool false, l.drop 5)
          else
            match parseJNum l with
            | some r => some r
            | none =>
                if l.take 3 == pyStr "NaN" then some (JVal.jnan, l.drop 3)
                else if l.take 8 == pyStr "Infinity" then some (JVal.jinf true, l.drop 8)
                else if l.take 9 == pyStr "-Infinity" then some (JVal.jinf false, l.drop 9)
                else none

/-- One object entry: a key at its opening quote, a colon, a value. -/
def parseJObjEntry : Nat → PyStr → List (PyStr × JVal) → Option (JVal × PyStr)
  | 0, _, _ => none
  | Nat.succ fuel, l, acc =>
      match l with
      | 34 :: rest =>
          match parseJStrBody (rest.length + 1) rest [] with
          | none => none
          | some kp =>
              match skipJWs kp.2 with
              | 58 :: r4 =>
                  match parseJVal fuel (skipJWs r4) with
                  | none => none
                  | some vp => parseJObjRest fuel (skipJWs vp.2) ((kp.1, vp.1) :: acc)
              | _ => none
      | _ => none

/-- After a parsed object entry: a closing brace or a comma and the next
entry. -/
def parseJObjRest : Nat → PyStr → List (PyStr × JVal) → Option (JVal × PyStr)
  | 0, _, _ => none
  | Nat.succ fuel, l, acc =>
      match l with
      | 125 :: rest => some (JVal.jobj acc.reverse, rest)
      | 44 :: rest => parseJObjEntry fuel (skipJWs rest) acc
      | _ => none

/-- One array item. -/
def parseJArrItem : Nat → PyStr → List JVal → Option (JVal × PyStr)
  | 0, _, _ => none
  | Nat.succ fuel, l, acc =>
      match parseJVal fuel l with
      | none => none
      | some vp => parseJArrRest fuel (skipJWs vp.2) (vp.1 :: acc)

/-- After a parsed array item: a closing bracket or a comma and the next
item. -/
def parseJArrRest : Nat → PyStr → List JVal → Option (JVal × PyStr)
  | 0, _, _ => none
  | Nat.succ fuel, l, acc =>
      match l with
      | 93 :: rest => some (JVal.jarr acc.reverse, rest)
      | 44 :: rest => parseJArrItem fuel (skipJWs rest) acc
      | _ => none

end

/-- json.loads on a str: skip leading whitespace, scan one value, require
only whitespace after it. -/
def jsonLoadsStr (s : PyStr) : Option JVal :=
  match parseJVal (2 * s.length + 8) (skipJWs s) with
  | none => none
  | some vp => if skipJWs vp.2 == [] then some vp.1 else none

/-- Is the byte a utf-8 continuation byte. -/
def utf8Cont (c : Nat) : Bool := 128 ≤ c && c ≤ 191

/-- Decode one utf-8 sequence starting with lead byte b: the code point
and the remaining bytes, or none for an invalid, overlong, surrogate or
out-of-range sequence. -/
def utf8Step (b : Nat) (rest : List Nat) : Option (Nat × List Nat) :=
  if b ≤ 127 then some (b, rest)
  else if 194 ≤ b && b ≤ 223 then
    match rest with
    | c :: r2 => if utf8Cont c then some ((b - 192) * 64 + (c - 128), r2) else none
    | [] => none
  else if 224 ≤ b && b ≤ 239 then
    match rest with
    | c :: d :: r3 =>
        if utf8Cont c && utf8Cont d then
          let v := (b - 224) * 4096 + (c - 128) * 64 + (d - 128)
          if 2048 ≤ v && !(55296 ≤ v && v ≤ 57343) then some (v, r3) else none
        else none
    | _ => none
  else if 240 ≤ b && b ≤ 244 then
    match rest with
    | c :: d :: e :: r4 =>
        if utf8Cont c && utf8Cont d && utf8Cont e then
          let v := (b - 240) * 262144 + (c - 128) * 4096 + (d - 128) * 64 + (e - 128)
          if 65536 ≤ v && v ≤ 1114111 then some (v, r4) else none
        else none
    | _ => none
  else none

/-- Strict utf-8 decoding as bytes.decode performs it, driven by fuel that
is at least the byte count so the recursion is structural. -/
def utf8DecodeAux : Nat → List Nat → Option PyStr
  | _, [] => some []
  | 0, _ :: _ => none
  | Nat.succ fuel, b :: rest =>
      match utf8Step b rest with
      | none => none
      | some vr => (utf8DecodeAux fuel vr.2).map (fun t => vr.1 :: t)

/-- Strict utf-8 decoding as bytes.decode performs it. -/
def utf8Decode (l : List Nat) : Option PyStr := utf8DecodeAux l.length l

/-- Decode one utf-8 sequence as errors=surrogatepass admits it: strict
utf-8, except that the three-byte sequences encoding the surrogate range
pass through. -/
def utf8StepSP (b : Nat) (rest : List Nat) : Option (Nat × List Nat) :=
  if b ≤ 127 then some (b, rest)
  else if 194 ≤ b && b ≤ 223 then
    match rest with
    | c :: r2 => if utf8Cont c then some ((b - 192) * 64 + (c - 128), r2) else none
    | [] => none
  else if 224 ≤ b && b ≤ 239 then
    match rest with
    | c :: d :: r3 =>
        if utf8Cont c && utf8Cont d then
          let v := (b - 224) * 4096 + (c - 128) * 64 + (d - 128)
          if 2048 ≤ v then some (v, r3) else none
        else none
    | _ => none
  else if 240 ≤ b && b ≤ 244 then
    match rest with
    | c :: d :: e :: r4 =>
        if utf8Cont c && utf8Cont d && utf8Cont e then
          let v := (b - 240) * 262144 + (c - 128) * 4096 + (d - 128) * 64 + (e - 128)
          if 65536 ≤ v && v ≤ 1114111 then some (v, r4) else none
        else none
    | _ => none
  else none

/-- utf-8 decoding with errors=surrogatepass, driven by fuel that is at
least the byte count so the recursion is structural. -/
def utf8DecodeSPAux : Nat → List Nat → Option PyStr
  | _, [] => some []
  | 0, _ :: _ => none
  | Nat.succ fuel, b :: rest =>
      match utf8StepSP b rest with
      | none => none
      | some vr => (utf8DecodeSPAux fuel vr.2).map (fun t => vr.1 :: t)

/-- bytes.decode with utf-8 and errors=surrogatepass. -/
def utf8DecodeSP (l : List Nat) : Option PyStr := utf8DecodeSPAux l.length l

/-- The two-byte code units of utf-16 (big-endian when be is true), or none
for an odd trailing byte, which even surrogatepass rejects. -/
def utf16Units (be : Bool) : List Nat → Option (List Nat)
  | [] => some []
  | [_] => none
  | b0 :: b1 :: rest =>
      (utf16Units be rest).map
        (fun t => (if be then b0 * 256 + b1 else b1 * 256 + b0) :: t)

/-- Combine utf-16 code units into code points: a high surrogate directly
followed by a low surrogate forms one supplementary code point; with
errors=surrogatepass a lone surrogate stands as its own code point. -/
def utf16Combine : List Nat → PyStr
  | [] => []
  | [u] => [u]
  | u :: u2 :: rest =>
      if 55296 ≤ u && u ≤ 56319 then
        if 56320 ≤ u2 && u2 ≤ 57343 then
          (65536 + (u - 55296) * 1024 + (u2 - 56320)) :: utf16Combine rest
        else u :: utf16Combine (u2 :: rest)
      else u :: utf16Combine (u2 :: rest)

/-- bytes.decode with utf-32-le or utf-32-be and errors=surrogatepass:
four-byte code units below 0x110000, surrogate values admitted. -/
def utf32Decode (be : Bool) : List Nat → Option PyStr
  | [] => some []
  | b0 :: b1 :: b2 :: b3 :: rest =>
      let v := if be then ((b0 * 256 + b1) * 256 + b2) * 256 + b3
               else ((b3 * 256 + b2) * 256 + b1) * 256 + b0
      if v < 1114112 then (utf32Decode be rest).map (fun t => v :: t) else none
  | _ => none

/-- The encodings json.detect_encoding can choose. -/
inductive JEnc : Type
  | utf8
  | utf16be
  | utf16le
  | utf32be
  | utf32le

/-- json.detect_encoding combined with the byte-order-mark handling of the
codecs it names: the checks run in source order (the utf-32 and utf-16
byte-order marks, the utf-8 one, then the zero-byte heuristics on inputs of
length at least four or exactly two), and a recognized mark is stripped,
as decoding with utf-32, utf-16 and utf-8-sig strips it. -/
def detect_encoding (b : List Nat) : JEnc × List Nat :=
  match b with
  | 0 :: 0 :: 254 :: 255 :: rest => (.utf32be, rest)
  | 255 :: 254 :: 0 :: 0 :: rest => (.utf32le, rest)
  | 254 :: 255 :: rest => (.utf16be, rest)
  | 255 :: 254 :: rest => (.utf16le, rest)
  | 239 :: 187 :: 191 :: rest => (.utf8, rest)
  | b0 :: b1 :: b2 :: b3 :: rest =>
      if b0 == 0 then
        ((if b1 == 0 then JEnc.utf32be else JEnc.utf16be), b0 :: b1 :: b2 :: b3 :: rest)
      else if b1 == 0 then
        ((if b2 == 0 && b3 == 0 then JEnc.utf32le else JEnc.utf16le),
          b0 :: b1 :: b2 :: b3 :: rest)
      else (.utf8, b0 :: b1 :: b2 :: b3 :: rest)
  | [b0, b1] =>
      if b0 == 0 then (.utf16be, [b0, b1])
      else if b1 == 0 then (.utf16le, [b0, b1])
      else (.utf8, [b0, b1])
  | l => (.utf8, l)

/-- The decode json.loads performs on bytes after encoding detection, with
errors=surrogatepass. -/
def jsonBytesDecode : JEnc → List Nat → Option PyStr
  | .utf8, body => utf8DecodeSP body
  | .utf16be, body => (utf16Units true body).map utf16Combine
  | .utf16le, body => (utf16Units false body).map utf16Combine
  | .utf32be, body => utf32Decode true body
  | .utf32le, body => utf32Decode false body

/-- json.loads on bytes: the encoding is detected (utf-8 by default, the
utf-16 and utf-32 variants by byte-order mark or zero-byte pattern), the
bytes are decoded with errors=surrogatepass, and the text is parsed. -/
def jsonLoadsBytes (bs : List Nat) : Option JVal :=
  match jsonBytesDecode (detect_encoding bs).1 (detect_encoding bs).2 with
  | none => none
  | some s => jsonLoadsStr s

/-- Python dict.get over the parsed field list: the last binding of a key
wins, as in a dict built by repeated insertion. -/
def jGet (fields : List (PyStr × JVal)) (key : PyStr) : Option JVal :=
  match fields.reverse.find? (fun kv => kv.1 == key) with
  | some kv => some kv.2
  | none => none

/-- Python truthiness of a JSON value. -/
def pyTruthy : JVal → Bool
  | .jnull => false
  | .jbool b => b
  | .jint n => n != 0
  | .jfloat m _ => m != 0
  | .jinf _ => true
  | .jnan => true
  | .jstr s => s != []
  | .jarr [] => false
  | .jarr (_ :: _) => true
  | .jobj [] => false
  | .jobj (_ :: _) => true

/-- Python isinstance int on a JSON value, with its value: bools are ints
in Python. -/
def pyIntOfJ : JVal → Option Int
  | .jint n => some n
  | .jbool b => some (if b then 1 else 0)
  | _ => none

/-! ## JSON serialization (json.dumps with compact separators) -/

/-- Lowercase hexadecimal digit. -/
def hexDig (d : Nat) : Nat := if d < 10 then 48 + d else 87 + d

/-- Four lowercase hexadecimal digits. -/
def hex4 (n : Nat) : List Nat :=
  [hexDig (n / 4096 % 16), hexDig (n / 256 % 16), hexDig (n / 16 % 16), hexDig (n % 16)]

/-- The escaping of json.dumps with the default ensure_ascii: quote,
backslash, the short control escapes, uXXXX for other control or non-ASCII
characters, and surrogate pairs above the basic plane. -/
def jsonEscapeCp (c : Nat) : List Nat :=
  if c == 34 then [92, 34]
  else if c == 92 then [92, 92]
  else if c == 8 then [92, 98]
  else if c == 9 then [92, 116]
  else if c == 10 then [92, 110]
  else if c == 12 then [92, 102]
  else if c == 13 then [92, 114]
  else if c < 32 then 92 :: 117 :: hex4 c
  else if c < 127 then [c]
  else if c < 65536 then 92 :: 117 :: hex4 c
  else
    let v := c - 65536
    92 :: 117 :: hex4 (55296 + v / 1024) ++ 92 :: 117 :: hex4 (56320 + v % 1024)

/-- Escape a whole string. -/
def jsonEscape (s : PyStr) : PyStr :=
  s.foldr (fun c acc => jsonEscapeCp c ++ acc) []

/-- A JSON string literal with its quotes. -/
def jStrLit (s : PyStr) : PyStr := 34 :: (jsonEscape s ++ [34])

/-- Decimal digits of a natural number; the fuel is at least the value, so
the recursion is structural and still reduces in the kernel. -/
def natDigitsAux : Nat → Nat → PyStr
  | 0, _ => []
  | Nat.succ _, 0 => [48]
  | Nat.succ fuel, n =>
      if n < 10 then [48 + n]
      else natDigitsAux fuel (n / 10) ++ [48 + n % 10]

/-- Decimal representation of an integer, as json.dumps prints int values. -/
def intToStr (n : Int) : PyStr :=
  if n < 0 then 45 :: natDigitsAux (n.natAbs + 1) n.natAbs
  else natDigitsAux (n.natAbs + 1) n.natAbs

/-- The serialized token payload: json.dumps of the payload dict of
create_access_token with separators comma and colon, in insertion order. -/
def encodePayload (sub role mode : PyStr) (iat exp : Int) : PyStr :=
  123 :: (jStrLit (pyStr "sub") ++ 58 :: jStrLit sub ++
    44 :: jStrLit (pyStr "role") ++ 58 :: jStrLit role ++
    44 :: jStrLit (pyStr "mode") ++ 58 :: jStrLit mode ++
    44 :: jStrLit (pyStr "iat") ++ 58 :: intToStr iat ++
    44 :: jStrLit (pyStr "exp") ++ 58 :: intToStr exp ++ [125])

/-- The field list that parsing the serialized payload back produces, in
serialization order. -/
def payloadFields (sub role mode : PyStr) (iat exp : Int) : List (PyStr × JVal) :=
  [(pyStr "sub", JVal.jstr sub), (pyStr "role", JVal.jstr role),
   (pyStr "mode", JVal.jstr mode), (pyStr "iat", JVal.jint iat),
   (pyStr "exp", JVal.jint exp)]

/-- A concrete test vector: the utf-16 serialization (byte-order mark and
little-endian code units) of a JSON payload object with sub "u", role
"Parent", mode "home" and exp 1. -/
def payloadUtf16 : List Nat :=
  [255, 254, 123, 0, 34, 0, 115, 0, 117, 0, 98, 0, 34, 0, 58, 0, 34, 0, 117, 0, 34, 0, 44,
   0, 34, 0, 114, 0, 111, 0, 108, 0, 101, 0, 34, 0, 58, 0, 34, 0, 80, 0, 97, 0, 114, 0, 101,
   0, 110, 0, 116, 0, 34, 0, 44, 0, 34, 0, 109, 0, 111, 0, 100, 0, 101, 0, 34, 0, 58, 0, 34,
   0, 104, 0, 111, 0, 109, 0, 101, 0, 34, 0, 44, 0, 34, 0, 101, 0, 120, 0, 112, 0, 34, 0,
   58, 0, 49, 0, 125, 0]

/-! ## Token module (src/utils/auth_service.py) -/

/-- The verified claims, as the AuthUser response model carries them. -/
structure AuthUserM where
  user_id : PyStr
  role : PyStr
  mode : PyStr
deriving DecidableEq, Repr

/-- The failure modes of verify_access_token.  The first six mirror the
HTTPException sites of the source in order; encodingError is the unhandled
UnicodeEncodeError raised when the payload segment is not ASCII,
nonObjectPayload the unhandled AttributeError raised when the payload is
not a JSON object, and claimsTypeError the response-model validation error
raised when the subject claim is truthy but not a string. -/
inductive VerifyErr : Type
  | invalidFormat
  | encodingError
  | invalidSignature
  | invalidPayload
  | nonObjectPayload
  | expired
  | missingClaims
  | invalidRole
  | invalidMode
  | claimsTypeError
deriving DecidableEq, Repr

/-- Result of verify_access_token. -/
inductive VResult : Type
  | ok (u : AuthUserM)
  | err (e : VerifyErr)
deriving DecidableEq, Repr

/-- Python str.split on the dot character. -/
def splitOnDot (s : PyStr) : List PyStr :=
  match s with
  | [] => [[]]
  | c :: rest =>
      match splitOnDot rest with
      | h :: t => if c == 46 then [] :: h :: t else (c :: h) :: t
      | [] => [[]]

/-- create_access_token: serialize the payload dict, base64url-encode it,
sign the encoded payload with HMAC-SHA256 under the secret, and join the
two segments with a dot.  The serialized payload is pure ASCII because
json.dumps escapes everything else, so its utf-8 bytes coincide with its
code points.  Returns the token and the expires_in value. -/
def create_access_token (secret : List Nat) (userId userRole mode : PyStr)
    (now ttl : Int) : PyStr × Int :=
  let payloadB64 := b64urlEncodeNoPad (encodePayload userId userRole mode now (now + ttl))
  (payloadB64 ++ 46 :: b64urlEncodeNoPad (hmacSha256 secret payloadB64), ttl)

/-- The valid roles of verify_access_token. -/
def roleSet : List PyStr := [pyStr "Parent", pyStr "Teacher", pyStr "Admin", pyStr "Librarian"]

/-- The valid modes of verify_access_token. -/
def modeSet : List PyStr := [pyStr "home", pyStr "institution"]

/-- Does the signature segment decode to exactly the HMAC recomputed over
the payload segment. -/
def sigMatches (secret : List Nat) (payloadB64 sigB64 : PyStr) : Bool :=
  match b64urlDecode sigB64 with
  | none => false
  | some provided => hmacSha256 secret payloadB64 == provided

/-- Decode the payload segment: base64url decode then json.loads. -/
def decodedPayload (payloadB64 : PyStr) : Option JVal :=
  match b64urlDecode payloadB64 with
  | none => none
  | some bytes => jsonLoadsBytes bytes

/-- Truthiness of a dict.get result. -/
def truthyOpt : Option JVal → Bool
  | some v => pyTruthy v
  | none => false

/-- Is the value a string belonging to the given set. -/
def isStrIn (v : Option JVal) (set : List PyStr) : Bool :=
  match v with
  | some (.jstr s) => set.any (fun t => t == s)
  | _ => false

/-- The claim checks of verify_access_token over a parsed payload object:
expiry (isinstance int and not past), presence by truthiness, role and
mode membership, then construction of the response model. -/
def verifyClaims (fields : List (PyStr × JVal)) (now : Int) : VResult :=
  let expOk :=
    match jGet fields (pyStr "exp") with
    | some e =>
        match pyIntOfJ e with
        | some v => !(v < now)
        | none => false
    | none => false
  if !expOk then .err .expired
  else
    let role := jGet fields (pyStr "role")
    let mode := jGet fields (pyStr "mode")
    let sub := jGet fields (pyStr "sub")
    if !truthyOpt role || !truthyOpt mode || !truthyOpt sub then .err .missingClaims
    else if !isStrIn role roleSet then .err .invalidRole
    else if !isStrIn mode modeSet then .err .invalidMode
    else
      match sub, role, mode with
      | some (.jstr u), some (.jstr r), some (.jstr m) => .ok ⟨u, r, m⟩
      | _, _, _ => .err .claimsTypeError

/-- The expiry test of verify_access_token in isolation: the exp claim is
present, is an int (Python bools count as ints), and is not before now. -/
def expOkB (fields : List (PyStr × JVal)) (now : Int) : Bool :=
  match jGet fields (pyStr "exp") with
  | some e =>
      match pyIntOfJ e with
      | some v => !(v < now)
      | none => false
  | none => false

/-- The presence test of verify_access_token in isolation: the role, mode
and sub claims are all truthy. -/
def claimsPresentB (fields : List (PyStr × JVal)) : Bool :=
  truthyOpt (jGet fields (pyStr "role")) && truthyOpt (jGet fields (pyStr "mode")) &&
    truthyOpt (jGet fields (pyStr "sub"))

/-- verify_access_token: split on the dot, recompute and compare the
signature, decode and parse the payload, then check the claims. -/
def verify_access_token (secret : List Nat) (token : PyStr) (now : Int) : VResult :=
  match splitOnDot token with
  | [payloadB64, sigB64] =>
      if !(payloadB64.all (fun c => c ≤ 127)) then .err .encodingError
      else if !sigMatches secret payloadB64 sigB64 then .err .invalidSignature
      else
        match decodedPayload payloadB64 with
        | none => .err .invalidPayload
        | some (.jobj fields) => verifyClaims fields now
        | some _ => .err .nonObjectPayload
  | _ => .err .invalidFormat

/-! ## Authentication (authenticate_user of src/utils/auth_service.py) -/

/-- A stored credential, as the user dicts of auth_service carry it. -/
structure Credential where
  id : PyStr
  email : PyStr
  password_hash : List Nat
  password_salt : List Nat
  role : PyStr
  modes : List PyStr
deriving DecidableEq, Repr

/-- Result of authenticate_user: the credential, or the 401 or 403
HTTPException. -/
inductive AuthResult : Type
  | ok (c : Credential)
  | unauthorized
  | forbidden
deriving DecidableEq, Repr

/-- Credential lookup: the external store first (passed as a function, as
load_user_from_db consults MongoDB), then the in-memory store list. -/
def lookupCredential (db : PyStr → Option Credential) (store : List Credential)
    (normalizedEmail : PyStr) : Option Credential :=
  match db normalizedEmail with
  | some u => some u
  | none => store.find? (fun item => item.email == normalizedEmail)

/-- authenticate_user: normalize the email, look the credential up,
recompute the password hash with the stored salt, then check the mode
against the allowed-modes list when it is non-empty. -/
def authenticate_user (db : PyStr → Option Credential) (store : List Credential)
    (email password mode : PyStr) : AuthResult :=
  let ne := pyLower (pyStrip email)
  match lookupCredential db store ne with
  | none => .unauthorized
  | some user =>
      if !(hash_password password user.password_salt == user.password_hash) then .unauthorized
      else if !user.modes.isEmpty && !(user.modes.contains mode) then .forbidden
      else .ok user

/-! ## Completion client (src/utils/huggingface_client.py) -/

/-- The upstream interaction as the client observes it: a network timeout,
another network error, or an HTTP response with its status and body text. -/
inductive Upstream : Type
  | timeout
  | netError
  | response (status : Nat) (bodyText : PyStr)

/-- The HuggingFaceError subclasses raised by the client body. -/
inductive HFKind : Type
  | authK
  | timeoutK
  | networkK
  | responseK
deriving DecidableEq, Repr

/-- Result of the client call: generated text, a HuggingFaceError with its
kind and status_code, or an unhandled exception escaping the function. -/
inductive HFResult : Type
  | ok (text : PyStr)
  | err (kind : HFKind) (status : Nat)
  | crash
deriving DecidableEq, Repr

/-- The content extraction of the 200 branch: for a dict result take
choices (default empty list); a truthy choices must be a non-empty list of
dicts with a dict message, anything else raises; the content defaults to
the empty string.  A none result models an unhandled exception. -/
def extractContent (j : JVal) : Option JVal :=
  match j with
  | .jobj fields =>
      let choices := (jGet fields (pyStr "choices")).getD (.jarr [])
      if !pyTruthy choices then some (.jstr [])
      else
        match choices with
        | .jarr (c0 :: _) =>
            match c0 with
            | .jobj cf =>
                match (jGet cf (pyStr "message")).getD (.jobj []) with
                | .jobj mf => some ((jGet mf (pyStr "content")).getD (.jstr []))
                | _ => none
            | _ => none
        | _ => none
  | _ => some (.jstr [])

/-- The body of call_huggingface_api after configuration succeeds: status
mapping, error-detail extraction, json parsing and the empty-content
check. -/
def callHuggingFace (resp : Upstream) : HFResult :=
  match resp with
  | .timeout => .err .timeoutK 504
  | .netError => .err .networkK 503
  | .response st body =>
      if st == 401 || st == 403 then .err .authK 401
      else if st == 503 then .err .responseK 502
      else if st != 200 then
        match jsonLoadsStr body with
        | some (.jobj _) => .err .responseK 502
        | some _ => .crash
        | none => .err .responseK 502
      else
        match jsonLoadsStr body with
        | none => .err .responseK 502
        | some j =>
            match extractContent j with
            | none => .crash
            | some gt =>
                if !pyTruthy gt then .err .responseK 502
                else
                  match gt with
                  | .jstr s => if pyStrip s == [] then .err .responseK 502 else .ok (pyStrip s)
                  | _ => .crash

/-! ## Request handlers (src/routers/story.py and src/routers/ai.py) -/

/-- The response of an endpoint, abstracted to the status classes the
handlers produce: a 200 with story text, a 400 with its literal detail, a
propagated HuggingFaceError with its kind and status, or the generic 500
of the final except clause. -/
inductive RewriteOutcome : Type
  | ok (story : PyStr)
  | badRequest (detail : PyStr)
  | upstreamError (kind : HFKind) (status : Nat)
  | internalError
deriving DecidableEq, Repr

/-- The age-validation detail of the rewrite endpoint. -/
def AGE_DETAIL : PyStr := pyStr "Age must be between 1 and 10"

/-- The fixed refusal message returned when the rewritten story is unsafe. -/
def REFUSAL_MESSAGE : PyStr :=
  pyStr "I" ++ [39] ++ pyStr "m sorry, but the rewritten story contains inappropriate content for children. Please try a different instruction."

/-- rewrite_story_endpoint of src/routers/story.py, parameterized by the
completion client; the best-effort history save has no effect on the
response and is omitted. -/
def rewrite_story_endpoint (hf : PyStr → PyStr → Int → HFResult)
    (age : Int) (original_story instruction : PyStr) : RewriteOutcome :=
  if age < 1 || age > 10 then .badRequest AGE_DETAIL
  else if pyStrip original_story == [] then .badRequest (pyStr "Original story cannot be empty")
  else
    let cleanedStory := clean_text_for_model original_story
    if cleanedStory == [] then .badRequest (pyStr "Original story cannot be empty")
    else if !is_content_safe cleanedStory then
      .badRequest (pyStr "Original story contains unsafe content and cannot be processed.")
    else if pyStrip instruction == [] then .badRequest (pyStr "Rewrite instruction cannot be empty")
    else
      let cleanedInstr := clean_text_for_model instruction
      if cleanedInstr == [] then .badRequest (pyStr "Rewrite instruction cannot be empty")
      else if !is_content_safe cleanedInstr then
        .badRequest (pyStr "Rewrite instruction contains unsafe content and cannot be processed.")
      else
        match (extract_child_name cleanedInstr).orElse (fun _ => extract_child_name cleanedStory) with
        | none =>
            .badRequest (pyStr "Child name is required. Please include at least one child name in the instruction or original story.")
        | some _ =>
            match hf cleanedStory cleanedInstr age with
            | .ok text => if !is_content_safe text then .ok REFUSAL_MESSAGE else .ok text
            | .err kind status => .upstreamError kind status
            | .crash => .internalError

/-- The age-required detail of the sample endpoint. -/
def SAMPLE_AGE_DETAIL : PyStr :=
  pyStr "Child age is required in the prompt. Please include an age between 1 and 10, for example: " ++
    [39] ++ pyStr "for a 7-year-old" ++ [39] ++ pyStr "."

/-- The name-required detail of the sample endpoint. -/
def SAMPLE_NAME_DETAIL : PyStr :=
  pyStr "Child name is required in the prompt. Please include at least one child name, for example: " ++
    [39] ++ pyStr "for Emma, age 7" ++ [39] ++ pyStr "."

/-- sample_ai_endpoint of src/routers/ai.py, the generation operation:
clean, safety-check the input, extract age and name, call the client and
return its output; the auto-save has no effect on the response and is
omitted.  The model output is returned without an output safety check. -/
def sample_ai_endpoint (hf : PyStr → HFResult) (prompt : PyStr) : RewriteOutcome :=
  let cleaned := clean_text_for_model prompt
  if cleaned == [] then .badRequest (pyStr "Prompt cannot be empty.")
  else if !is_content_safe cleaned then
    .badRequest (pyStr "Prompt contains unsafe content and cannot be processed.")
  else
    match extract_age_from_prompt cleaned with
    | none => .badRequest SAMPLE_AGE_DETAIL
    | some _ =>
        match extract_child_name cleaned with
        | none => .badRequest SAMPLE_NAME_DETAIL
        | some _ =>
            match hf cleaned with
            | .ok output => .ok output
            | .err kind status => .upstreamError kind status
            | .crash => .internalError

/-! ## Story history service (src/utils/story_history_service.py) -/

/-- A stored story-history document with the fields the listing functions
read. -/
structure StoryDoc : Type where
  docId : PyStr
  user_id : PyStr
  child_name : PyStr
  prompt : PyStr
  story : PyStr
  age : Option Int
  is_favorite : Bool
  mode : PyStr
  rtype : PyStr
  created_at : Int
  updated_at : Int
deriving DecidableEq, Repr

/-- The record dict built by the listing functions. -/
structure StoryRecord : Type where
  id : PyStr
  user_id : PyStr
  child_name : PyStr
  prompt : PyStr
  story : PyStr
  age : Option Int
  is_favorite : Bool
  mode : PyStr
  rtype : PyStr
  created_at : Int
  updated_at : Int
deriving DecidableEq, Repr

/-- Projection of a document to its record dict. -/
def docToRecord (d : StoryDoc) : StoryRecord :=
  ⟨d.docId, d.user_id, d.child_name, d.prompt, d.story, d.age, d.is_favorite,
   d.mode, d.rtype, d.created_at, d.updated_at⟩

/-- Result of a listing call: the records, or the ValueError raised for a
blank user id. -/
inductive ListResult : Type
  | ok (records : List StoryRecord)
  | valueError
deriving DecidableEq, Repr

/-- Insert into a list sorted by created_at descending. -/
def insertDesc (d : StoryDoc) : List StoryDoc → List StoryDoc
  | [] => [d]
  | x :: xs => if d.created_at ≤ x.created_at then x :: insertDesc d xs else d :: x :: xs

/-- The created_at descending sort of the query. -/
def sortByCreatedDesc (l : List StoryDoc) : List StoryDoc := l.foldr insertDesc []

/-- list_story_records: validate the user id, return the empty list without
a store, otherwise query the documents of the user sorted newest first and
capped by the clamped limit. -/
def list_story_records (db : Option (List StoryDoc)) (user_id : PyStr) (limit : Int) :
    ListResult :=
  if pyStrip user_id == [] then .valueError
  else
    match db with
    | none => .ok []
    | some docs =>
        let safeLimit := max 1 (min limit 200)
        .ok (((sortByCreatedDesc (docs.filter (fun d => d.user_id == pyStrip user_id))).take
          safeLimit.toNat).map docToRecord)

/-- list_favorite_records: as list_story_records with the favorite flag in
the query filter. -/
def list_favorite_records (db : Option (List StoryDoc)) (user_id : PyStr) (limit : Int) :
    ListResult :=
  if pyStrip user_id == [] then .valueError
  else
    match db with
    | none => .ok []
    | some docs =>
        let safeLimit := max 1 (min limit 200)
        .ok (((sortByCreatedDesc (docs.filter
          (fun d => d.user_id == pyStrip user_id && d.is_favorite))).take
          safeLimit.toNat).map docToRecord)

/-! ## Spec-side definition for the capitalization claim -/

/-- Modelled from the spec: capitalization that uppercases the first
letter and leaves the rest unchanged, as the specification describes the
returned name. -/
def specCapFirstUpper (s : PyStr) : PyStr :=
  match s with
  | [] => []
  | c :: rest => toUpperCp c :: rest

/-! ## General helper lemmas -/

theorem toLowerCp_toUpperCp (c : Nat) : toLowerCp (toUpperCp c) = toLowerCp c := by
  simp only [toLowerCp, toUpperCp]
  split_ifs <;> simp_all
  all_goals omega

theorem toLowerCp_idem (c : Nat) : toLowerCp (toLowerCp c) = toLowerCp c := by
  simp only [toLowerCp]
  split_ifs <;> simp_all
  all_goals omega

theorem pyLower_pyCapitalize (s : PyStr) : pyLower (pyCapitalize s) = pyLower s := by
  cases s with
  | nil => rfl
  | cons c rest =>
      simp only [pyCapitalize, pyLower, List.map_cons, List.map_map,
        toLowerCp_toUpperCp, List.cons.injEq, true_and]
      exact List.map_congr_left (fun c _ => toLowerCp_idem c)

theorem pyCapitalize_length (s : PyStr) : (pyCapitalize s).length = s.length := by
  cases s <;> simp [pyCapitalize]

theorem pyStrip_of_all_space (s : PyStr) (h : ∀ c ∈ s, pyIsSpaceCp c = true) :
    pyStrip s = [] := by
  have h1 : s.dropWhile pyIsSpaceCp = [] := List.dropWhile_eq_nil_iff.mpr h
  simp [pyStrip, h1]

theorem tryAgePat_range (pat : PyStr → Option Nat) (prompt : PyStr) (k : Option Nat)
    (hk : ∀ v, k = some v → 1 ≤ v ∧ v ≤ 10) :
    ∀ v, tryAgePat pat prompt k = some v → 1 ≤ v ∧ v ≤ 10 := by
  intro v h
  unfold tryAgePat at h
  cases hs : scanPat pat false prompt with
  | none => rw [hs] at h; exact hk v h
  | some w =>
      rw [hs] at h
      dsimp only at h
      by_cases hr : inAgeRange w = true
      · rw [if_pos hr] at h
        cases h
        simp only [inAgeRange, Bool.and_eq_true, decide_eq_true_eq] at hr
        omega
      · rw [if_neg hr] at h
        exact hk v h

theorem tryNamePat_sound (pat : PyStr → Option PyStr) (cleaned : PyStr) (k : Option PyStr)
    (hk : ∀ n, k = some n →
      2 ≤ n.length ∧ DISALLOWED.contains (pyLower n) = false) :
    ∀ n, tryNamePat pat cleaned k = some n →
      2 ≤ n.length ∧ DISALLOWED.contains (pyLower n) = false := by
  intro n h
  unfold tryNamePat at h
  cases hs : scanPat pat false cleaned with
  | none => rw [hs] at h; exact hk n h
  | some cap =>
      rw [hs] at h
      dsimp only at h
      split_ifs at h with h1 h2
      · exact hk n h
      · exact hk n h
      · cases h
        constructor
        · rw [pyCapitalize_length]; omega
        · rw [pyLower_pyCapitalize]
          exact Bool.not_eq_true _ |>.mp h2

/-! ## Claim C3 -/

/-- C3 counterexample: the claim states that is_content_safe flags
"Killer whale" as unsafe because it contains "kill"; the function in fact
returns true, because the word-boundary pattern does not match "kill"
inside "killer". -/
theorem c3_counterexample : is_content_safe (pyStr "Killer whale") = true := by decide

/-- C3 (amended): is_content_safe is case-insensitive and matches the
denylist as whole words, so "Killer whale" is NOT flagged (no
word-boundary match for "kill" inside "killer"), "skill" is not flagged,
"Kill the dragon" is flagged in either letter case, and every empty or
whitespace-only input yields true. -/
theorem c3_theorem :
    is_content_safe (pyStr "Killer whale") = true ∧
    is_content_safe (pyStr "skill") = true ∧
    is_content_safe (pyStr "Kill the dragon") = false ∧
    is_content_safe (pyStr "KILL the dragon") = false ∧
    ∀ s : PyStr, (∀ c ∈ s, pyIsSpaceCp c = true) → is_content_safe s = true := by
  refine ⟨by decide, by decide, by decide, by decide, ?_⟩
  intro s h
  simp [is_content_safe, pyStrip_of_all_space s h]

/-- C3 witness: the whitespace-only clause of the theorem evaluated at a
concrete two-space input. -/
theorem c3_witness : is_content_safe (pyStr "  ") = true :=
  c3_theorem.2.2.2.2 (pyStr "  ") (by decide)

/-! ## Claim C6 -/

/-- C6: the age extractor maps "for a 7-year-old" to 7, rejects the
out-of-range "for a 15-year-old" and the pattern-free "no age here", and
every value it ever returns lies in the range one to ten. -/
theorem c6_theorem :
    extract_age_from_prompt (pyStr "for a 7-year-old") = some 7 ∧
    extract_age_from_prompt (pyStr "for a 15-year-old") = none ∧
    extract_age_from_prompt (pyStr "no age here") = none ∧
    ∀ s v, extract_age_from_prompt s = some v → 1 ≤ v ∧ v ≤ 10 := by
  refine ⟨by decide, by decide, by decide, ?_⟩
  intro s v h
  unfold extract_age_from_prompt at h
  refine tryAgePat_range _ _ _ (tryAgePat_range _ _ _ (tryAgePat_range _ _ _
    (tryAgePat_range _ _ _ ?_)) ) v h
  intro w hw
  cases hw

/-- C6 witness: the range clause of the theorem evaluated at the concrete
prompt of the first example. -/
theorem c6_witness : 1 ≤ 7 ∧ 7 ≤ 10 :=
  c6_theorem.2.2.2 (pyStr "for a 7-year-old") 7 (by decide)

/-! ## Claim C7 -/

/-- C7 counterexample: on "a story for BOBBY" the captured token is BOBBY,
and the claimed capitalization (first letter upper, rest unchanged) would
return BOBBY; extract_child_name in fact returns Bobby, because Python
str.capitalize lowercases the rest of the string. -/
theorem c7_counterexample :
    extract_child_name (pyStr "a story for BOBBY") = some (pyStr "Bobby") ∧
    specCapFirstUpper (pyStr "BOBBY") ≠ pyStr "Bobby" := ⟨by decide, by decide⟩

/-- C7 (amended): extract_child_name cleans the text, tries its six
patterns in priority order, requires the trimmed capture to have length at
least two and to avoid the stopword set, and returns the first valid match
with the first letter uppercased and the REST LOWERCASED (Python
str.capitalize); it maps "a story for Emma, age 7" to "Emma" and "a story
for the child" to none, and every returned name has length at least two
and is not a stopword. -/
theorem c7_theorem :
    extract_child_name (pyStr "a story for Emma, age 7") = some (pyStr "Emma") ∧
    extract_child_name (pyStr "a story for the child") = none ∧
    extract_child_name (pyStr "a story for BOBBY") = some (pyCapitalize (pyStr "BOBBY")) ∧
    ∀ t n, extract_child_name t = some n →
      2 ≤ n.length ∧ DISALLOWED.contains (pyLower n) = false := by
  refine ⟨by decide, by decide, by decide, ?_⟩
  intro t n h
  unfold extract_child_name at h
  dsimp only at h
  split_ifs at h
  refine tryNamePat_sound _ _ _ (tryNamePat_sound _ _ _ (tryNamePat_sound _ _ _
    (tryNamePat_sound _ _ _ (tryNamePat_sound _ _ _ (tryNamePat_sound _ _ _ ?_))))) n h
  intro w hw
  cases hw

/-- C7 witness: the length and stopword clause of the theorem evaluated at
the concrete prompt of the first example. -/
theorem c7_witness :
    2 ≤ (pyStr "Emma").length ∧ DISALLOWED.contains (pyLower (pyStr "Emma")) = false :=
  c7_theorem.2.2.2 (pyStr "a story for Emma, age 7") (pyStr "Emma") (by decide)

/-! ## Claim C10 -/

/-- C10: both listing functions return at most max 1 (min limit 200)
records, hence never more than two hundred, and a non-positive limit
behaves exactly like a limit of one. -/
theorem c10_theorem :
    ∀ (db : Option (List StoryDoc)) (uid : PyStr) (lim : Int),
      (∀ recs, list_story_records db uid lim = .ok recs →
        recs.length ≤ (max 1 (min lim 200)).toNat ∧ recs.length ≤ 200) ∧
      (∀ recs, list_favorite_records db uid lim = .ok recs →
        recs.length ≤ (max 1 (min lim 200)).toNat ∧ recs.length ≤ 200) ∧
      (lim ≤ 0 →
        list_story_records db uid lim = list_story_records db uid 1 ∧
        list_favorite_records db uid lim = list_favorite_records db uid 1) := by
  intro db uid lim
  have htn : (max 1 (min lim 200)).toNat ≤ 200 := by omega
  refine ⟨?_, ?_, ?_⟩
  · intro recs h
    unfold list_story_records at h
    by_cases hv : (pyStrip uid == []) = true
    · rw [if_pos hv] at h
      exact ListResult.noConfusion h
    · rw [if_neg hv] at h
      cases db with
      | none =>
          dsimp at h
          cases h
          simp
      | some docs =>
          dsimp at h
          cases h
          refine ⟨?_, ?_⟩ <;> simp only [List.length_map, List.length_take] <;> omega
  · intro recs h
    unfold list_favorite_records at h
    by_cases hv : (pyStrip uid == []) = true
    · rw [if_pos hv] at h
      exact ListResult.noConfusion h
    · rw [if_neg hv] at h
      cases db with
      | none =>
          dsimp at h
          cases h
          simp
      | some docs =>
          dsimp at h
          cases h
          refine ⟨?_, ?_⟩ <;> simp only [List.length_map, List.length_take] <;> omega
  · intro hle
    have he : max 1 (min lim 200) = max 1 (min (1 : Int) 200) := by omega
    constructor
    · unfold list_story_records
      rw [he]
    · unfold list_favorite_records
      rw [he]

/-- C10 witness: the limit-one clause of the theorem evaluated at a
one-document store and limit zero. -/
theorem c10_witness :
    list_story_records (some [⟨[105], [117], [], [], [], none, true, [], [], 0, 0⟩])
      (pyStr "u") 0 =
    list_story_records (some [⟨[105], [117], [], [], [], none, true, [], [], 0, 0⟩])
      (pyStr "u") 1 :=
  ((c10_theorem (some [⟨[105], [117], [], [], [], none, true, [], [], 0, 0⟩])
    (pyStr "u") 0).2.2 (by decide)).1

/-! ## Claim C8 -/

/-- C8: authenticate_user fails Unauthorized exactly when the lookup of
the trimmed lowercased email (external store first, then the in-memory
store) finds nothing or the recomputed password hash differs from the
stored one; with a matching credential and password it fails Forbidden
exactly when the allowed-modes list is non-empty and does not contain the
requested mode, and otherwise returns the credential. -/
theorem c8_theorem :
    ∀ (db : PyStr → Option Credential) (store : List Credential)
      (email password mode : PyStr),
      (authenticate_user db store email password mode = .unauthorized ↔
        lookupCredential db store (pyLower (pyStrip email)) = none ∨
        ∃ u, lookupCredential db store (pyLower (pyStrip email)) = some u ∧
          hash_password password u.password_salt ≠ u.password_hash) ∧
      (∀ u, lookupCredential db store (pyLower (pyStrip email)) = some u →
        hash_password password u.password_salt = u.password_hash →
        ((authenticate_user db store email password mode = .forbidden ↔
           u.modes ≠ [] ∧ u.modes.contains mode = false) ∧
         (u.modes = [] ∨ u.modes.contains mode = true →
           authenticate_user db store email password mode = .ok u))) := by
  intro db store email password mode
  have heq : authenticate_user db store email password mode =
      match lookupCredential db store (pyLower (pyStrip email)) with
      | none => .unauthorized
      | some user =>
          if !(hash_password password user.password_salt == user.password_hash) then
            .unauthorized
          else if !user.modes.isEmpty && !(user.modes.contains mode) then .forbidden
          else .ok user := rfl
  cases hl : lookupCredential db store (pyLower (pyStrip email)) with
  | none =>
      rw [hl] at heq
      dsimp at heq
      constructor
      · rw [heq]
        simp
      · intro u hu
        exact Option.noConfusion hu
  | some u =>
      rw [hl] at heq
      dsimp at heq
      constructor
      · by_cases hh : hash_password password u.password_salt = u.password_hash
        · have hb : (hash_password password u.password_salt == u.password_hash) = true := by
            simp [hh]
          rw [hb] at heq
          simp only [Bool.not_true, Bool.false_eq_true, if_false] at heq
          constructor
          · intro hres
            rw [heq] at hres
            split_ifs at hres
          · rintro (h0 | ⟨u2, hu2, hne2⟩)
            · exact Option.noConfusion h0
            · have hu2e : u = u2 := Option.some.inj hu2
              exact absurd hh (hu2e ▸ hne2)
        · have hb : (hash_password password u.password_salt == u.password_hash) = false := by
            simp [hh]
          rw [hb] at heq
          simp only [Bool.not_false, if_true] at heq
          constructor
          · intro _
            exact Or.inr ⟨u, rfl, hh⟩
          · intro _
            exact heq
      · intro u2 hu2 hh
        have hu2e : u = u2 := Option.some.inj hu2
        subst hu2e
        have hb : (hash_password password u.password_salt == u.password_hash) = true := by
          simp [hh]
        rw [hb] at heq
        simp only [Bool.not_true, Bool.false_eq_true, if_false] at heq
        constructor
        · rw [heq]
          by_cases hm : u.modes = []
          · have hie : u.modes.isEmpty = true := by simp [hm]
            rw [hie]
            simp [hm]
          · have hie : u.modes.isEmpty = false := by
              cases hme : u.modes with
              | nil => exact absurd hme hm
              | cons a t => simp
            rw [hie]
            cases hc : u.modes.contains mode with
            | true => simp [hm, hc]
            | false => simp [hm, hc]
        · rintro (hm | hc)
          · rw [heq]
            have hie : u.modes.isEmpty = true := by simp [hm]
            rw [hie]
            simp
          · rw [heq, hc]
            simp

/-- C8 witness: the unauthorized clause of the theorem evaluated at an
empty external store and empty in-memory store. -/
theorem c8_witness :
    authenticate_user (fun _ => none) [] (pyStr "a@b.c") (pyStr "pw") (pyStr "home") =
      .unauthorized :=
  (c8_theorem (fun _ => none) [] (pyStr "a@b.c") (pyStr "pw") (pyStr "home")).1.mpr
    (Or.inl rfl)

/-! ## Claim C4 -/

/-- C4 counterexample: an upstream 503 response is raised as a
HuggingFaceResponseError whose status_code is 502, not as the 503-status
error the claim describes. -/
theorem c4_counterexample :
    callHuggingFace (.response 503 []) = .err .responseK 502 ∧ (502 : Nat) ≠ 503 :=
  ⟨rfl, by decide⟩

/-- C4 (amended): the completion client maps a network timeout to the
504-status timeout error, upstream 401 or 403 to the 401-status auth
error, and an upstream 503, any other non-200 status, a non-JSON 200
body, and an empty or blank content field all to the 502-status response
error; non-blank content is returned stripped. -/
theorem c4_theorem :
    (callHuggingFace .timeout = .err .timeoutK 504) ∧
    (callHuggingFace .netError = .err .networkK 503) ∧
    (∀ st body, st = 401 ∨ st = 403 → callHuggingFace (.response st body) = .err .authK 401) ∧
    (∀ body, callHuggingFace (.response 503 body) = .err .responseK 502) ∧
    (∀ st body, st ≠ 200 → st ≠ 401 → st ≠ 403 → st ≠ 503 →
      (jsonLoadsStr body = none ∨ ∃ fields, jsonLoadsStr body = some (.jobj fields)) →
      callHuggingFace (.response st body) = .err .responseK 502) ∧
    (∀ body, jsonLoadsStr body = none →
      callHuggingFace (.response 200 body) = .err .responseK 502) ∧
    (∀ body j s, jsonLoadsStr body = some j → extractContent j = some (.jstr s) →
      pyStrip s = [] → callHuggingFace (.response 200 body) = .err .responseK 502) ∧
    (∀ body j s, jsonLoadsStr body = some j → extractContent j = some (.jstr s) →
      pyStrip s ≠ [] → callHuggingFace (.response 200 body) = .ok (pyStrip s)) := by
  refine ⟨rfl, rfl, ?_, ?_, ?_, ?_, ?_, ?_⟩
  · rintro st body (rfl | rfl) <;> rfl
  · intro body
    rfl
  · intro st body h200 h401 h403 h503 hbody
    unfold callHuggingFace
    dsimp only
    rw [if_neg (by simp [h401, h403]), if_neg (by simp [h503]),
      if_pos (by simp [h200])]
    rcases hbody with hb | ⟨fields, hb⟩ <;> rw [hb]
  · intro body hb
    unfold callHuggingFace
    dsimp only
    rw [hb]
    rfl
  · intro body j s hb hc hstrip
    unfold callHuggingFace
    dsimp only
    rw [hb]
    dsimp only
    rw [hc]
    dsimp only
    by_cases hs : s = []
    · subst hs
      rfl
    · have ht : pyTruthy (.jstr s) = true := by
        simp [pyTruthy, hs]
      rw [ht]
      have hs2 : (pyStrip s == []) = true := by simp [hstrip]
      simp [hs2]
  · intro body j s hb hc hstrip
    unfold callHuggingFace
    dsimp only
    rw [hb]
    dsimp only
    rw [hc]
    dsimp only
    have hsne : s ≠ [] := by
      intro he
      subst he
      exact hstrip rfl
    have ht : pyTruthy (.jstr s) = true := by simp [pyTruthy, hsne]
    rw [ht]
    have hs2 : (pyStrip s == []) = false := by simp [hstrip]
    simp [hs2]

/-- C4 witness: the auth clause of the theorem evaluated at a concrete 401
response. -/
theorem c4_witness : callHuggingFace (.response 401 []) = .err .authK 401 :=
  c4_theorem.2.2.1 401 [] (Or.inl rfl)

/-! ## Claim C5 -/

/-- C5: for schema-valid rewrite requests the handler returns the 400
age-validation error exactly when the age exceeds ten (the schema already
enforces a lower bound of one), in particular for every age from eleven to
eighteen, and in that case the response does not depend on the completion
client, which is therefore never consulted. -/
theorem c5_theorem :
    ∀ (hf hf2 : PyStr → PyStr → Int → HFResult) (age : Int) (story instr : PyStr),
      1 ≤ age → age ≤ 18 →
      ((rewrite_story_endpoint hf age story instr = .badRequest AGE_DETAIL ↔ 10 < age) ∧
       (10 < age →
         rewrite_story_endpoint hf age story instr =
         rewrite_story_endpoint hf2 age story instr)) := by
  intro hf hf2 age story instr h1 h18
  by_cases hage : 10 < age
  · have hc : (decide (age < 1) || decide (age > 10)) = true := by
      simp only [Bool.or_eq_true, decide_eq_true_eq]
      omega
    constructor
    · unfold rewrite_story_endpoint
      rw [if_pos hc]
      exact ⟨fun _ => hage, fun _ => rfl⟩
    · intro _
      unfold rewrite_story_endpoint
      rw [if_pos hc, if_pos hc]
  · have hc : ¬((decide (age < 1) || decide (age > 10)) = true) := by
      simp only [Bool.or_eq_true, decide_eq_true_eq]
      omega
    refine ⟨?_, fun hx => absurd hx hage⟩
    simp only [hage, iff_false]
    intro he
    unfold rewrite_story_endpoint at he
    rw [if_neg hc] at he
    dsimp only at he
    repeat' split at he
    all_goals first
      | exact absurd (RewriteOutcome.badRequest.inj he) (by decide)
      | exact RewriteOutcome.noConfusion he

/-- C5 witness: the age-rejection clause of the theorem evaluated at a
schema-valid request with age fifteen, under two different completion
clients. -/
theorem c5_witness :
    rewrite_story_endpoint (fun _ _ _ => HFResult.ok (pyStr "tale")) 15
      (pyStr "a tale for Emma") (pyStr "make it longer") =
    rewrite_story_endpoint (fun _ _ _ => HFResult.crash) 15
      (pyStr "a tale for Emma") (pyStr "make it longer") :=
  ((c5_theorem (fun _ _ _ => HFResult.ok (pyStr "tale")) (fun _ _ _ => HFResult.crash)
    15 (pyStr "a tale for Emma") (pyStr "make it longer") (by decide) (by decide)).2
    (by decide))

/-! ## Claim C9 -/

/-- C9 counterexample: the generation operation (the sample endpoint,
which records its saves with type generate) performs no output safety
check: with a client returning unsafe text on a prompt that passes input
validation, the endpoint returns the unsafe text itself with status 200
rather than the fixed refusal message. -/
theorem c9_counterexample :
    sample_ai_endpoint (fun _ => HFResult.ok (pyStr "Emma found a gun"))
      (pyStr "a story for Emma, age 7") = .ok (pyStr "Emma found a gun") ∧
    is_content_safe (pyStr "Emma found a gun") = false ∧
    pyStr "Emma found a gun" ≠ REFUSAL_MESSAGE := ⟨by decide, by decide, by decide⟩

/-- C9 (amended): for every REWRITE request that passes input validation
and for which the completion client returns text, an unsafe output still
yields a success carrying the fixed child-safe refusal message in place of
the generated text; the sample generation endpoint returns its output
without an output safety check. -/
theorem c9_theorem :
    ∀ (hf : PyStr → PyStr → Int → HFResult) (age : Int) (story instr text : PyStr),
      1 ≤ age → age ≤ 10 →
      pyStrip story ≠ [] →
      clean_text_for_model story ≠ [] →
      is_content_safe (clean_text_for_model story) = true →
      pyStrip instr ≠ [] →
      clean_text_for_model instr ≠ [] →
      is_content_safe (clean_text_for_model instr) = true →
      (extract_child_name (clean_text_for_model instr)).orElse
        (fun _ => extract_child_name (clean_text_for_model story)) ≠ none →
      hf (clean_text_for_model story) (clean_text_for_model instr) age = .ok text →
      is_content_safe text = false →
      rewrite_story_endpoint hf age story instr = .ok REFUSAL_MESSAGE := by
  intro hf age story instr text h1 h10 hs1 hs2 hs3 hi1 hi2 hi3 hn hhf hnotsafe
  have hc : ¬((decide (age < 1) || decide (age > 10)) = true) := by
    simp only [Bool.or_eq_true, decide_eq_true_eq]
    omega
  unfold rewrite_story_endpoint
  rw [if_neg hc, if_neg (by simp [hs1]), if_neg (by simp [hs2]),
    if_neg (by simp [hs3]), if_neg (by simp [hi1]), if_neg (by simp [hi2]),
    if_neg (by simp [hi3])]
  rcases ho : (extract_child_name (clean_text_for_model instr)).orElse
      (fun _ => extract_child_name (clean_text_for_model story)) with _ | n
  · exact absurd ho hn
  · dsimp only
    rw [hhf]
    dsimp only
    rw [hnotsafe]
    rfl

/-- C9 witness: the refusal clause of the theorem evaluated at a concrete
passing request whose client output contains a denylist word. -/
theorem c9_witness :
    rewrite_story_endpoint (fun _ _ _ => HFResult.ok (pyStr "a gun tale")) 7
      (pyStr "a tale for Emma") (pyStr "make it happier") = .ok REFUSAL_MESSAGE :=
  c9_theorem (fun _ _ _ => HFResult.ok (pyStr "a gun tale")) 7
    (pyStr "a tale for Emma") (pyStr "make it happier") (pyStr "a gun tale")
    (by decide) (by decide) (by decide) (by decide) (by decide) (by decide)
    (by decide) (by decide) (by decide) (by decide) (by decide)

/-! ## Base64url round-trip lemmas -/

theorem b64urlChar_facts (v : Nat) :
    b64urlChar v ≤ 127 ∧ b64urlChar v ≠ 46 ∧ b64urlChar v ≠ 61 := by
  unfold b64urlChar
  split_ifs <;> omega

theorem b64Val_urlTrans : ∀ v : Nat, v < 64 → b64Val (urlTrans (b64urlChar v)) = some v := by
  decide

theorem urlTrans_char_ne61 (v : Nat) : (urlTrans (b64urlChar v) == 61) = false := by
  have h := (b64urlChar_facts v).2.2
  unfold urlTrans
  split_ifs <;> simp <;> omega

theorem a2b_step_char (v : Nat) (hv : v < 64) (rest : List Nat) (qp lc pads : Nat)
    (out : List Nat) :
    a2bBase64 (urlTrans (b64urlChar v) :: rest) qp lc pads out =
      match qp with
      | 0 => a2bBase64 rest 1 v 0 out
      | 1 => a2bBase64 rest 2 (v % 16) 0 (out ++ [lc * 4 + v / 16])
      | 2 => a2bBase64 rest 3 (v % 4) 0 (out ++ [lc * 16 + v / 4])
      | _ => a2bBase64 rest 0 0 0 (out ++ [lc * 64 + v]) := by
  simp only [a2bBase64, urlTrans_char_ne61 v, b64Val_urlTrans v hv]
  rfl

theorem a2b_encGroups : (bs : List Nat) → (∀ b ∈ bs, b < 256) → ∀ out : List Nat,
    a2bBase64 ((b64EncGroups bs).map urlTrans) 0 0 0 out = some (out ++ bs)
  | [], _, out => by simp [b64EncGroups, a2bBase64]
  | [a], h, out => by
      have ha : a < 256 := h a (by simp)
      simp only [b64EncGroups, List.map_cons, List.map_nil]
      rw [a2b_step_char (a / 4) (by omega)]
      dsimp only
      rw [a2b_step_char (a % 4 * 16) (by omega)]
      dsimp only
      have e1 : a / 4 * 4 + a % 4 * 16 / 16 = a := by omega
      have e2 : a % 4 * 16 % 16 = 0 := by omega
      rw [e1, e2]
      rfl
  | [a, b], h, out => by
      have ha : a < 256 := h a (by simp)
      have hb : b < 256 := h b (by simp)
      simp only [b64EncGroups, List.map_cons, List.map_nil]
      rw [a2b_step_char (a / 4) (by omega)]
      dsimp only
      rw [a2b_step_char (a % 4 * 16 + b / 16) (by omega)]
      dsimp only
      rw [a2b_step_char (b % 16 * 4) (by omega)]
      dsimp only
      have e1 : a / 4 * 4 + (a % 4 * 16 + b / 16) / 16 = a := by omega
      have e2 : (a % 4 * 16 + b / 16) % 16 = b / 16 := by omega
      have e3 : b / 16 * 16 + b % 16 * 4 / 4 = b := by omega
      rw [e1, e2, e3]
      have hfin : a2bBase64 [urlTrans 61] 3 (b % 16 * 4 % 4) 0 (out ++ [a] ++ [b]) =
          some (out ++ [a, b]) := by
        have e4 : b % 16 * 4 % 4 = 0 := by omega
        rw [e4]
        simp [a2bBase64, urlTrans]
      exact hfin
  | a :: b :: c :: d :: rest, h, out => by
      have ha : a < 256 := h a (by simp)
      have hb : b < 256 := h b (by simp)
      have hc : c < 256 := h c (by simp)
      have ih := a2b_encGroups (d :: rest) (fun x hx => h x (by simp [hx])) (out ++ [a, b, c])
      show a2bBase64 ((b64EncGroups (a :: b :: c :: d :: rest)).map urlTrans) 0 0 0 out =
        some (out ++ a :: b :: c :: d :: rest)
      have hgr : b64EncGroups (a :: b :: c :: d :: rest) =
          b64urlChar (a / 4) :: b64urlChar (a % 4 * 16 + b / 16) ::
          b64urlChar (b % 16 * 4 + c / 64) :: b64urlChar (c % 64) ::
          b64EncGroups (d :: rest) := rfl
      rw [hgr]
      simp only [List.map_cons]
      rw [a2b_step_char (a / 4) (by omega)]
      dsimp only
      rw [a2b_step_char (a % 4 * 16 + b / 16) (by omega)]
      dsimp only
      rw [a2b_step_char (b % 16 * 4 + c / 64) (by omega)]
      dsimp only
      rw [a2b_step_char (c % 64) (by omega)]
      dsimp only
      have e1 : a / 4 * 4 + (a % 4 * 16 + b / 16) / 16 = a := by omega
      have e2 : (a % 4 * 16 + b / 16) % 16 = b / 16 := by omega
      have e3 : b / 16 * 16 + (b % 16 * 4 + c / 64) / 4 = b := by omega
      have e4 : (b % 16 * 4 + c / 64) % 4 = c / 64 := by omega
      have e5 : c / 64 * 64 + c % 64 = c := by omega
      rw [e1, e2, e3, e4, e5]
      rw [show out ++ [a] ++ [b] ++ [c] = out ++ [a, b, c] by simp]
      rw [ih]
      simp
  | [a, b, c], h, out => by
      have ha : a < 256 := h a (by simp)
      have hb : b < 256 := h b (by simp)
      have hc : c < 256 := h c (by simp)
      show a2bBase64 ((b64EncGroups [a, b, c]).map urlTrans) 0 0 0 out = some (out ++ [a, b, c])
      have hgr : b64EncGroups [a, b, c] =
          [b64urlChar (a / 4), b64urlChar (a % 4 * 16 + b / 16),
           b64urlChar (b % 16 * 4 + c / 64), b64urlChar (c % 64)] := rfl
      rw [hgr]
      simp only [List.map_cons, List.map_nil]
      rw [a2b_step_char (a / 4) (by omega)]
      dsimp only
      rw [a2b_step_char (a % 4 * 16 + b / 16) (by omega)]
      dsimp only
      rw [a2b_step_char (b % 16 * 4 + c / 64) (by omega)]
      dsimp only
      rw [a2b_step_char (c % 64) (by omega)]
      dsimp only
      have e1 : a / 4 * 4 + (a % 4 * 16 + b / 16) / 16 = a := by omega
      have e2 : (a % 4 * 16 + b / 16) % 16 = b / 16 := by omega
      have e3 : b / 16 * 16 + (b % 16 * 4 + c / 64) / 4 = b := by omega
      have e4 : (b % 16 * 4 + c / 64) % 4 = c / 64 := by omega
      have e5 : c / 64 * 64 + c % 64 = c := by omega
      rw [e1, e2, e3, e4, e5]
      simp [a2bBase64]

theorem encGroups_split : (bs : List Nat) →
    b64EncGroups bs = encNoPadDirect bs ++
      List.replicate ((4 - (encNoPadDirect bs).length % 4) % 4) 61
  | [] => rfl
  | [a] => rfl
  | [a, b] => rfl
  | a :: b :: c :: rest => by
      have ih := encGroups_split rest
      have hlen : (encNoPadDirect (a :: b :: c :: rest)).length =
          4 + (encNoPadDirect rest).length := by
        cases rest <;> simp [encNoPadDirect] <;> omega
      show b64urlChar (a / 4) :: b64urlChar (a % 4 * 16 + b / 16) ::
          b64urlChar (b % 16 * 4 + c / 64) :: b64urlChar (c % 64) :: b64EncGroups rest = _
      rw [hlen]
      have hm : (4 - (4 + (encNoPadDirect rest).length) % 4) % 4 =
          (4 - (encNoPadDirect rest).length % 4) % 4 := by omega
      rw [hm]
      show _ = (b64urlChar (a / 4) :: b64urlChar (a % 4 * 16 + b / 16) ::
          b64urlChar (b % 16 * 4 + c / 64) :: b64urlChar (c % 64) :: encNoPadDirect rest) ++ _
      simp only [List.cons_append]
      rw [ih]

theorem encNoPadDirect_mem : (bs : List Nat) → ∀ c ∈ encNoPadDirect bs, ∃ v, c = b64urlChar v
  | [] => by simp [encNoPadDirect]
  | [a] => by
      intro c hcm
      simp only [encNoPadDirect, List.mem_cons, List.not_mem_nil, or_false] at hcm
      rcases hcm with rfl | rfl
      · exact ⟨_, rfl⟩
      · exact ⟨_, rfl⟩
  | [a, b] => by
      intro c hcm
      simp only [encNoPadDirect, List.mem_cons, List.not_mem_nil, or_false] at hcm
      rcases hcm with rfl | rfl | rfl
      · exact ⟨_, rfl⟩
      · exact ⟨_, rfl⟩
      · exact ⟨_, rfl⟩
  | a :: b :: c :: rest => by
      intro x hxm
      have hd : encNoPadDirect (a :: b :: c :: rest) =
          b64urlChar (a / 4) :: b64urlChar (a % 4 * 16 + b / 16) ::
          b64urlChar (b % 16 * 4 + c / 64) :: b64urlChar (c % 64) ::
          encNoPadDirect rest := by
        cases rest <;> rfl
      rw [hd] at hxm
      simp only [List.mem_cons] at hxm
      rcases hxm with rfl | rfl | rfl | rfl | hxm
      · exact ⟨_, rfl⟩
      · exact ⟨_, rfl⟩
      · exact ⟨_, rfl⟩
      · exact ⟨_, rfl⟩
      · exact encNoPadDirect_mem rest x hxm

theorem dropWhile_replicate61 (k : Nat) (l : List Nat) :
    (List.replicate k 61 ++ l).dropWhile (fun c => c == 61) =
    l.dropWhile (fun c => c == 61) := by
  induction k with
  | zero => rfl
  | succ n ih => simpa [List.replicate_succ, List.dropWhile] using ih

theorem b64urlEncodeNoPad_eq (bs : List Nat) : b64urlEncodeNoPad bs = encNoPadDirect bs := by
  unfold b64urlEncodeNoPad
  rw [encGroups_split bs, List.reverse_append, List.reverse_replicate,
    dropWhile_replicate61]
  cases hrev : (encNoPadDirect bs).reverse with
  | nil =>
      have : encNoPadDirect bs = [] := by
        have := congrArg List.reverse hrev
        simpa using this
      simp [hrev, this]
  | cons x xs =>
      have hxmem : x ∈ encNoPadDirect bs := by
        have : x ∈ (encNoPadDirect bs).reverse := by rw [hrev]; simp
        simpa using this
      rcases encNoPadDirect_mem bs x hxmem with ⟨v, rfl⟩
      have hx : (b64urlChar v == 61) = false := by
        have := (b64urlChar_facts v).2.2
        simp [this]
      rw [List.dropWhile_cons_of_neg (by simp [hx])]
      rw [← hrev, List.reverse_reverse]

theorem b64_roundtrip (bs : List Nat) (h : ∀ b ∈ bs, b < 256) :
    b64urlDecode (b64urlEncodeNoPad bs) = some bs := by
  rw [b64urlEncodeNoPad_eq]
  unfold b64urlDecode
  have hascii : ((encNoPadDirect bs).all (fun c => c ≤ 127)) = true := by
    rw [List.all_eq_true]
    intro c hcm
    rcases encNoPadDirect_mem bs c hcm with ⟨v, rfl⟩
    have := (b64urlChar_facts v).1
    simpa using this
  rw [if_neg (by simp [hascii])]
  dsimp only
  rw [← encGroups_split bs]
  have := a2b_encGroups bs h []
  simpa using this

/-! ## Byte-level lemmas for the token pipeline -/

theorem utf8Decode_ascii : ∀ l : List Nat, (∀ b ∈ l, b ≤ 127) → utf8Decode l = some l := by
  intro l
  induction l with
  | nil => intro _; rfl
  | cons b t ih =>
      intro h
      have hb : b ≤ 127 := h b (by simp)
      have hstep : utf8Step b t = some (b, t) := by
        unfold utf8Step
        rw [if_pos hb]
      have iht : utf8DecodeAux t.length t = some t := ih (fun c hc => h c (by simp [hc]))
      show utf8DecodeAux (t.length + 1) (b :: t) = some (b :: t)
      simp only [utf8DecodeAux, hstep, iht]
      rfl

theorem wordsToBytes_lt : ∀ ws : List Nat, ∀ b ∈ wordsToBytes ws, b < 256
  | [] => by simp [wordsToBytes]
  | w :: ws => by
      intro b hb
      simp only [wordsToBytes, List.mem_cons] at hb
      rcases hb with rfl | rfl | rfl | rfl | hb
      · omega
      · omega
      · omega
      · omega
      · exact wordsToBytes_lt ws b hb

theorem sha256_bytes_lt (m : List Nat) : ∀ b ∈ sha256 m, b < 256 := by
  unfold sha256
  exact wordsToBytes_lt _

theorem hmacSha256_bytes_lt (key msg : List Nat) : ∀ b ∈ hmacSha256 key msg, b < 256 := by
  unfold hmacSha256
  exact sha256_bytes_lt _

theorem splitOnDot_no_dot : ∀ s : PyStr, (∀ c ∈ s, c ≠ 46) → splitOnDot s = [s] := by
  intro s
  induction s with
  | nil => intro _; rfl
  | cons c t ih =>
      intro h
      have hc : (c == 46) = false := by
        simp only [beq_eq_false_iff_ne, ne_eq]
        exact h c (by simp)
      unfold splitOnDot
      rw [ih (fun x hx => h x (by simp [hx]))]
      simp [hc]

theorem splitOnDot_pair (p s : PyStr) (hp : ∀ c ∈ p, c ≠ 46) (hs : ∀ c ∈ s, c ≠ 46) :
    splitOnDot (p ++ 46 :: s) = [p, s] := by
  induction p with
  | nil =>
      show splitOnDot (46 :: s) = [[], s]
      unfold splitOnDot
      rw [splitOnDot_no_dot s hs]
      simp
  | cons c t ih =>
      have hc : (c == 46) = false := by
        simp only [beq_eq_false_iff_ne, ne_eq]
        exact hp c (by simp)
      show splitOnDot (c :: (t ++ 46 :: s)) = [c :: t, s]
      unfold splitOnDot
      rw [ih (fun x hx => hp x (by simp [hx]))]
      simp [hc]

/-! ## Decimal digits of an integer -/

theorem digitsValN_append_one (ds : PyStr) (x : Nat) :
    digitsValN (ds ++ [x]) = digitsValN ds * 10 + (x - 48) := by
  simp [digitsValN, List.foldl_append]

theorem natDigitsAux_spec : ∀ fuel n : Nat, n < fuel →
    natDigitsAux fuel n ≠ [] ∧ (∀ c ∈ natDigitsAux fuel n, isDigitCp c = true) ∧
      digitsValN (natDigitsAux fuel n) = n := by
  intro fuel
  induction fuel with
  | zero => intro n hn; omega
  | succ f ih =>
      intro n hn
      match n with
      | 0 =>
          refine ⟨by simp [natDigitsAux], ?_, by simp [natDigitsAux, digitsValN]⟩
          intro c hc
          simp only [natDigitsAux, List.mem_singleton] at hc
          subst hc
          decide
      | Nat.succ m =>
          by_cases h10 : Nat.succ m < 10
          · rw [show natDigitsAux (Nat.succ f) (Nat.succ m) = [48 + Nat.succ m] by
              simp [natDigitsAux, h10]]
            refine ⟨by simp, ?_, ?_⟩
            · intro c hc
              simp only [List.mem_singleton] at hc
              subst hc
              simp only [isDigitCp, Bool.and_eq_true, decide_eq_true_eq]
              omega
            · simp only [digitsValN, List.foldl_cons, List.foldl_nil]
              omega
          · rw [show natDigitsAux (Nat.succ f) (Nat.succ m) =
                natDigitsAux f (Nat.succ m / 10) ++ [48 + Nat.succ m % 10] by
              simp [natDigitsAux, h10]]
            have hlt : Nat.succ m / 10 < f := by omega
            obtain ⟨hne, hdig, hval⟩ := ih (Nat.succ m / 10) hlt
            refine ⟨by simp, ?_, ?_⟩
            · intro c hc
              rcases List.mem_append.mp hc with hc | hc
              · exact hdig c hc
              · simp only [List.mem_singleton] at hc
                subst hc
                simp only [isDigitCp, Bool.and_eq_true, decide_eq_true_eq]
                omega
            · rw [digitsValN_append_one, hval]
              omega

theorem natDigitsAux_head : ∀ fuel n : Nat, n < fuel → 1 ≤ n →
    ∃ d ds, natDigitsAux fuel n = d :: ds ∧ d ≠ 48 ∧ isDigitCp d = true := by
  intro fuel
  induction fuel with
  | zero => intro n hn; omega
  | succ f ih =>
      intro n hn h1
      by_cases h10 : n < 10
      · refine ⟨48 + n, [], ?_, by omega, ?_⟩
        · match n, h1 with
          | Nat.succ m, _ => simp [natDigitsAux, h10]
        · simp only [isDigitCp, Bool.and_eq_true, decide_eq_true_eq]
          omega
      · have hrw : natDigitsAux (Nat.succ f) n =
            natDigitsAux f (n / 10) ++ [48 + n % 10] := by
          match n, h1 with
          | Nat.succ m, _ => simp [natDigitsAux, h10]
        obtain ⟨d, ds, hds, hd48, hddig⟩ := ih (n / 10) (by omega) (by omega)
        exact ⟨d, ds ++ [48 + n % 10], by rw [hrw, hds]; rfl, hd48, hddig⟩

/-! ## String escape round-trip -/

theorem hexDigVal_hexDig : ∀ d : Nat, d < 16 → hexDigVal (hexDig d) = some d := by decide

theorem hex4Val_hex4 (n : Nat) (hn : n < 65536) :
    hex4Val (hexDig (n / 4096 % 16)) (hexDig (n / 256 % 16)) (hexDig (n / 16 % 16))
      (hexDig (n % 16)) = some n := by
  unfold hex4Val
  rw [hexDigVal_hexDig _ (by omega), hexDigVal_hexDig _ (by omega),
    hexDigVal_hexDig _ (by omega), hexDigVal_hexDig _ (by omega)]
  dsimp only
  congr 1
  omega

set_option maxHeartbeats 1000000 in
theorem jsonEscapeCp_len_pos (c : Nat) : 1 ≤ (jsonEscapeCp c).length := by
  unfold jsonEscapeCp
  dsimp only
  split_ifs <;> simp [hex4]

theorem parseJStrBody_step_quote (F : Nat) (rest acc : PyStr) :
    parseJStrBody (Nat.succ F) (34 :: rest) acc = some (acc.reverse, rest) := rfl

theorem parseJStrBody_step_escape (F e cp : Nat) (r2 r3 acc : PyStr)
    (h : jStrEscape e r2 = some (cp, r3)) :
    parseJStrBody (Nat.succ F) (92 :: e :: r2) acc = parseJStrBody F r3 (cp :: acc) := by
  have hr : parseJStrBody (Nat.succ F) (92 :: e :: r2) acc =
      (match jStrEscape e r2 with
       | none => none
       | some ur => parseJStrBody F ur.2 (ur.1 :: acc)) := rfl
  rw [hr, h]

theorem parseJStrBody_step_plain (F c : Nat) (rest acc : PyStr)
    (h34 : c ≠ 34) (h92 : c ≠ 92) (h32 : ¬c < 32) :
    parseJStrBody (Nat.succ F) (c :: rest) acc = parseJStrBody F rest (c :: acc) := by
  have hr : parseJStrBody (Nat.succ F) (c :: rest) acc =
      (if c == 34 then some (acc.reverse, rest)
       else if c == 92 then
         (match rest with
          | [] => none
          | e :: r2 =>
              match jStrEscape e r2 with
              | none => none
              | some ur => parseJStrBody F ur.2 (ur.1 :: acc))
       else if c < 32 then none
       else parseJStrBody F rest (c :: acc)) := rfl
  rw [hr, if_neg (by simp [h34]), if_neg (by simp [h92]), if_neg h32]

theorem jStrU_single (c : Nat) (hc : c < 65536) (hns : ¬(55296 ≤ c ∧ c ≤ 56319))
    (r3 : PyStr) : jStrU (hex4 c ++ r3) = some (c, r3) := by
  have hr : jStrU (hex4 c ++ r3) =
      (match hex4Val (hexDig (c / 4096 % 16)) (hexDig (c / 256 % 16)) (hexDig (c / 16 % 16))
        (hexDig (c % 16)) with
       | none => none
       | some u => if 55296 ≤ u && u ≤ 56319 then jStrUPair u r3 else some (u, r3)) := rfl
  rw [hr, hex4Val_hex4 c hc]
  dsimp only
  rw [if_neg (by simp only [Bool.and_eq_true, decide_eq_true_eq]; omega)]

theorem jStrU_pair_gen (hi lo : Nat) (hhi1 : 55296 ≤ hi) (hhi2 : hi ≤ 56319)
    (hlo1 : 56320 ≤ lo) (hlo2 : lo ≤ 57343) (rest : PyStr) :
    jStrU (hex4 hi ++ (92 :: 117 :: (hex4 lo ++ rest))) =
      some (65536 + (hi - 55296) * 1024 + (lo - 56320), rest) := by
  have hhi : hi < 65536 := by omega
  have hlo : lo < 65536 := by omega
  have hr : jStrU (hex4 hi ++ (92 :: 117 :: (hex4 lo ++ rest))) =
      (match hex4Val (hexDig (hi / 4096 % 16)) (hexDig (hi / 256 % 16))
        (hexDig (hi / 16 % 16)) (hexDig (hi % 16)) with
       | none => none
       | some u =>
          if 55296 ≤ u && u ≤ 56319 then
            jStrUPair u (92 :: 117 :: (hex4 lo ++ rest))
          else some (u, 92 :: 117 :: (hex4 lo ++ rest))) := rfl
  rw [hr, hex4Val_hex4 hi hhi]
  dsimp only
  rw [if_pos (by simp only [Bool.and_eq_true, decide_eq_true_eq]; omega)]
  have hp : jStrUPair hi (92 :: 117 :: (hex4 lo ++ rest)) =
      (match hex4Val (hexDig (lo / 4096 % 16)) (hexDig (lo / 256 % 16))
        (hexDig (lo / 16 % 16)) (hexDig (lo % 16)) with
       | none => none
       | some u2 =>
          if 56320 ≤ u2 && u2 ≤ 57343 then
            some (65536 + (hi - 55296) * 1024 + (u2 - 56320), rest)
          else some (hi, 92 :: 117 :: (hex4 lo ++ rest))) := rfl
  rw [hp, hex4Val_hex4 lo hlo]
  dsimp only
  rw [if_pos (by simp only [Bool.and_eq_true, decide_eq_true_eq]; omega)]

theorem jStrU_pair (c : Nat) (h1 : 65536 ≤ c) (h2 : c ≤ 1114111) (rest : PyStr) :
    jStrU (hex4 (55296 + (c - 65536) / 1024) ++
      (92 :: 117 :: (hex4 (56320 + (c - 65536) % 1024) ++ rest))) = some (c, rest) := by
  have h := jStrU_pair_gen (55296 + (c - 65536) / 1024) (56320 + (c - 65536) % 1024)
    (by omega) (by omega) (by omega) (by omega) rest
  rw [h]
  have hc : 65536 + (55296 + (c - 65536) / 1024 - 55296) * 1024 +
      (56320 + (c - 65536) % 1024 - 56320) = c := by omega
  rw [hc]

theorem jStrEscape_u (r2 : PyStr) : jStrEscape 117 r2 = jStrU r2 := rfl

theorem parseJStrBody_u_branch (F c : Nat) (tail acc : PyStr) (hc : c < 65536)
    (hns : ¬(55296 ≤ c ∧ c ≤ 56319)) :
    parseJStrBody (Nat.succ F) (92 :: 117 :: (hex4 c ++ tail)) acc =
      parseJStrBody F tail (c :: acc) := by
  refine parseJStrBody_step_escape F 117 c _ tail acc ?_
  rw [jStrEscape_u]
  exact jStrU_single c hc hns tail

theorem jsonEscape_cons (c : Nat) (cs : PyStr) :
    jsonEscape (c :: cs) = jsonEscapeCp c ++ jsonEscape cs := rfl

theorem parseJStrBody_round : ∀ (s acc rest : PyStr) (extra : Nat),
    (∀ c ∈ s, validScalarCp c) →
    parseJStrBody ((jsonEscape s).length + 1 + extra) (jsonEscape s ++ 34 :: rest) acc =
      some (acc.reverse ++ s, rest) := by
  intro s
  induction s with
  | nil =>
      intro acc rest extra _
      have hf : (jsonEscape ([] : PyStr)).length + 1 + extra = Nat.succ extra := by
        simp [jsonEscape]
        omega
      rw [hf]
      show parseJStrBody (Nat.succ extra) (34 :: rest) acc = _
      rw [parseJStrBody_step_quote]
      simp
  | cons c cs ih =>
      intro acc rest extra hv
      obtain ⟨hlt, hsur⟩ := hv c (by simp)
      have hvcs : ∀ x ∈ cs, validScalarCp x := fun x hx => hv x (by simp [hx])
      have hf : (jsonEscape (c :: cs)).length + 1 + extra =
          Nat.succ ((jsonEscape cs).length + 1 + ((jsonEscapeCp c).length - 1 + extra)) := by
        rw [jsonEscape_cons, List.length_append]
        have := jsonEscapeCp_len_pos c
        omega
      rw [hf, jsonEscape_cons, List.append_assoc]
      have hfin : ∀ F : Nat,
          parseJStrBody F (jsonEscape cs ++ 34 :: rest) (c :: acc) =
            some ((c :: acc).reverse ++ cs, rest) →
          parseJStrBody F (jsonEscape cs ++ 34 :: rest) (c :: acc) =
            some (acc.reverse ++ c :: cs, rest) := by
        intro F h
        rw [h]
        simp
      by_cases h34 : c = 34
      · subst h34
        have hesc : jsonEscapeCp 34 = [92, 34] := rfl
        rw [hesc]
        simp only [List.cons_append, List.nil_append]
        rw [parseJStrBody_step_escape _ 34 34 _ _ _ rfl]
        exact hfin _ (ih (34 :: acc) rest _ hvcs)
      · by_cases h92 : c = 92
        · subst h92
          have hesc : jsonEscapeCp 92 = [92, 92] := rfl
          rw [hesc]
          simp only [List.cons_append, List.nil_append]
          rw [parseJStrBody_step_escape _ 92 92 _ _ _ rfl]
          exact hfin _ (ih (92 :: acc) rest _ hvcs)
        · by_cases h8 : c = 8
          · subst h8
            have hesc : jsonEscapeCp 8 = [92, 98] := rfl
            rw [hesc]
            simp only [List.cons_append, List.nil_append]
            rw [parseJStrBody_step_escape _ 98 8 _ _ _ rfl]
            exact hfin _ (ih (8 :: acc) rest _ hvcs)
          · by_cases h9 : c = 9
            · subst h9
              have hesc : jsonEscapeCp 9 = [92, 116] := rfl
              rw [hesc]
              simp only [List.cons_append, List.nil_append]
              rw [parseJStrBody_step_escape _ 116 9 _ _ _ rfl]
              exact hfin _ (ih (9 :: acc) rest _ hvcs)
            · by_cases h10 : c = 10
              · subst h10
                have hesc : jsonEscapeCp 10 = [92, 110] := rfl
                rw [hesc]
                simp only [List.cons_append, List.nil_append]
                rw [parseJStrBody_step_escape _ 110 10 _ _ _ rfl]
                exact hfin _ (ih (10 :: acc) rest _ hvcs)
              · by_cases h12 : c = 12
                · subst h12
                  have hesc : jsonEscapeCp 12 = [92, 102] := rfl
                  rw [hesc]
                  simp only [List.cons_append, List.nil_append]
                  rw [parseJStrBody_step_escape _ 102 12 _ _ _ rfl]
                  exact hfin _ (ih (12 :: acc) rest _ hvcs)
                · by_cases h13 : c = 13
                  · subst h13
                    have hesc : jsonEscapeCp 13 = [92, 114] := rfl
                    rw [hesc]
                    simp only [List.cons_append, List.nil_append]
                    rw [parseJStrBody_step_escape _ 114 13 _ _ _ rfl]
                    exact hfin _ (ih (13 :: acc) rest _ hvcs)
                  · by_cases h32 : c < 32
                    · have hesc : jsonEscapeCp c = 92 :: 117 :: hex4 c := by
                        unfold jsonEscapeCp
                        rw [if_neg (by simp [h34]), if_neg (by simp [h92]),
                          if_neg (by simp [h8]), if_neg (by simp [h9]),
                          if_neg (by simp [h10]), if_neg (by simp [h12]),
                          if_neg (by simp [h13]), if_pos h32]
                      rw [hesc]
                      simp only [List.cons_append]
                      rw [parseJStrBody_u_branch _ c _ _ (by omega) (by omega)]
                      exact hfin _ (ih (c :: acc) rest _ hvcs)
                    · by_cases h127 : c < 127
                      · have hesc : jsonEscapeCp c = [c] := by
                          unfold jsonEscapeCp
                          rw [if_neg (by simp [h34]), if_neg (by simp [h92]),
                            if_neg (by simp [h8]), if_neg (by simp [h9]),
                            if_neg (by simp [h10]), if_neg (by simp [h12]),
                            if_neg (by simp [h13]), if_neg h32, if_pos h127]
                        rw [hesc]
                        simp only [List.cons_append, List.nil_append]
                        rw [parseJStrBody_step_plain _ c _ _ h34 h92 h32]
                        exact hfin _ (ih (c :: acc) rest _ hvcs)
                      · by_cases h65536 : c < 65536
                        · have hesc : jsonEscapeCp c = 92 :: 117 :: hex4 c := by
                            unfold jsonEscapeCp
                            rw [if_neg (by simp [h34]), if_neg (by simp [h92]),
                              if_neg (by simp [h8]), if_neg (by simp [h9]),
                              if_neg (by simp [h10]), if_neg (by simp [h12]),
                              if_neg (by simp [h13]), if_neg h32, if_neg h127,
                              if_pos h65536]
                          rw [hesc]
                          simp only [List.cons_append]
                          rw [parseJStrBody_u_branch _ c _ _ h65536 (by omega)]
                          exact hfin _ (ih (c :: acc) rest _ hvcs)
                        · have hesc : jsonEscapeCp c =
                              (92 :: 117 :: hex4 (55296 + (c - 65536) / 1024)) ++
                              (92 :: 117 :: hex4 (56320 + (c - 65536) % 1024)) := by
                            unfold jsonEscapeCp
                            rw [if_neg (by simp [h34]), if_neg (by simp [h92]),
                              if_neg (by simp [h8]), if_neg (by simp [h9]),
                              if_neg (by simp [h10]), if_neg (by simp [h12]),
                              if_neg (by simp [h13]), if_neg h32, if_neg h127,
                              if_neg h65536]
                          rw [hesc]
                          simp only [List.cons_append, List.append_assoc]
                          rw [parseJStrBody_step_escape _ 117 c _ _ _ ?_]
                          · exact hfin _ (ih (c :: acc) rest _ hvcs)
                          · rw [jStrEscape_u]
                            exact jStrU_pair c (by omega) (by omega) _

theorem takeWhile_append_stop (p : Nat → Bool) (l1 l2 : List Nat)
    (h1 : ∀ c ∈ l1, p c = true) (h2 : ∀ c ∈ l2.take 1, p c = false) :
    (l1 ++ l2).takeWhile p = l1 ∧ (l1 ++ l2).dropWhile p = l2 := by
  induction l1 with
  | nil =>
      simp only [List.nil_append]
      cases l2 with
      | nil => simp
      | cons c cs =>
          have hc : p c = false := h2 c (by simp)
          simp [List.takeWhile, List.dropWhile, hc]
  | cons a t ih =>
      have ha : p a = true := h1 a (by simp)
      obtain ⟨iht, ihd⟩ := ih (fun c hc => h1 c (by simp [hc]))
      simp only [List.cons_append, List.takeWhile, List.dropWhile, ha, List.append_eq]
      exact ⟨by rw [iht], by rw [ihd]⟩

theorem parseJNum_digits (ds : PyStr) (d : Nat) (r0 : Nat) (rrest : PyStr)
    (hd48 : d ≠ 48) (hdig : ∀ c ∈ d :: ds, isDigitCp c = true)
    (hr : r0 = 44 ∨ r0 = 125) (neg : Bool) :
    parseJNum ((if neg then 45 :: (d :: ds) else d :: ds) ++ r0 :: rrest) =
      some (.jint (if neg then -(digitsValN (d :: ds) : Int) else (digitsValN (d :: ds) : Int)),
        r0 :: rrest) := by
  have hdd : isDigitCp d = true := hdig d (by simp)
  have hd4557 : 48 ≤ d ∧ d ≤ 57 := by
    simpa [isDigitCp] using hdd
  have htd := takeWhile_append_stop isDigitCp (d :: ds) (r0 :: rrest) hdig
    (by intro c hc
        simp only [List.take, List.mem_singleton] at hc
        subst hc
        rcases hr with rfl | rfl <;> rfl)
  cases neg with
  | false =>
      simp only [if_false, Bool.false_eq_true]
      unfold parseJNum
      have hhead : ((d :: ds ++ r0 :: rrest).headD 0 == 45) = false := by
        simp only [List.cons_append, List.headD_cons, beq_eq_false_iff_ne, ne_eq]
        omega
      rw [hhead]
      simp only [Bool.false_eq_true, if_false, List.cons_append]
      rw [show isDigitCp d = true from hdd]
      simp only [Bool.not_true, Bool.false_eq_true, if_false]
      have hd48b : (d == 48) = false := by
        simp only [beq_eq_false_iff_ne, ne_eq]
        exact hd48
      rw [hd48b]
      simp only [Bool.false_eq_true, if_false]
      have htake : List.takeWhile isDigitCp (d :: (ds ++ r0 :: rrest)) = d :: ds := by
        have h2 := htd.1
        rwa [List.cons_append] at h2
      have hdrop : List.drop (d :: ds).length (d :: (ds ++ r0 :: rrest)) = r0 :: rrest := by
        rw [← List.cons_append, List.drop_left]
      rw [htake, hdrop]
      rcases hr with rfl | rfl <;> cases rrest <;> rfl
  | true =>
      simp only [if_true]
      unfold parseJNum
      have hhead : ((45 :: (d :: ds) ++ r0 :: rrest).headD 0 == 45) = true := by
        simp
      rw [hhead]
      simp only [if_true, List.cons_append, List.tail_cons]
      rw [show isDigitCp d = true from hdd]
      simp only [Bool.not_true, Bool.false_eq_true, if_false]
      have hd48b : (d == 48) = false := by
        simp only [beq_eq_false_iff_ne, ne_eq]
        exact hd48
      rw [hd48b]
      simp only [Bool.false_eq_true, if_false]
      have htake : List.takeWhile isDigitCp (d :: (ds ++ r0 :: rrest)) = d :: ds := by
        have h2 := htd.1
        rwa [List.cons_append] at h2
      have hdrop : List.drop (d :: ds).length (d :: (ds ++ r0 :: rrest)) = r0 :: rrest := by
        rw [← List.cons_append, List.drop_left]
      rw [htake, hdrop]
      rcases hr with rfl | rfl <;> cases rrest <;> rfl

theorem parseJNum_intToStr (n : Int) (r0 : Nat) (rrest : PyStr)
    (hr : r0 = 44 ∨ r0 = 125) :
    parseJNum (intToStr n ++ r0 :: rrest) = some (.jint n, r0 :: rrest) := by
  by_cases hneg : n < 0
  · have hN : 1 ≤ n.natAbs := by omega
    obtain ⟨d, ds, hds, hd48, _⟩ := natDigitsAux_head (n.natAbs + 1) n.natAbs (by omega) hN
    have hdig : ∀ c ∈ natDigitsAux (n.natAbs + 1) n.natAbs, isDigitCp c = true :=
      (natDigitsAux_spec (n.natAbs + 1) n.natAbs (by omega)).2.1
    have hval : digitsValN (natDigitsAux (n.natAbs + 1) n.natAbs) = n.natAbs :=
      (natDigitsAux_spec (n.natAbs + 1) n.natAbs (by omega)).2.2
    have hint : intToStr n = 45 :: (d :: ds) := by
      unfold intToStr
      rw [if_pos hneg, hds]
    rw [hint]
    have := parseJNum_digits ds d r0 rrest hd48 (hds ▸ hdig) hr true
    simp only [if_true] at this
    have hval2 : digitsValN (d :: ds) = n.natAbs := by rw [← hds]; exact hval
    rw [this, hval2]
    have hcast : -((n.natAbs : Nat) : Int) = n := by omega
    rw [hcast]
  · by_cases h0 : n = 0
    · subst h0
      have hint : intToStr 0 = [48] := by decide
      rw [hint]
      rcases hr with rfl | rfl <;> cases rrest <;> rfl
    · have hN : 1 ≤ n.natAbs := by omega
      obtain ⟨d, ds, hds, hd48, _⟩ := natDigitsAux_head (n.natAbs + 1) n.natAbs (by omega) hN
      have hdig : ∀ c ∈ natDigitsAux (n.natAbs + 1) n.natAbs, isDigitCp c = true :=
        (natDigitsAux_spec (n.natAbs + 1) n.natAbs (by omega)).2.1
      have hval : digitsValN (natDigitsAux (n.natAbs + 1) n.natAbs) = n.natAbs :=
        (natDigitsAux_spec (n.natAbs + 1) n.natAbs (by omega)).2.2
      have hint : intToStr n = d :: ds := by
        unfold intToStr
        rw [if_neg hneg, hds]
      rw [hint]
      have := parseJNum_digits ds d r0 rrest hd48 (hds ▸ hdig) hr false
      simp only [Bool.false_eq_true, if_false] at this
      have hval2 : digitsValN (d :: ds) = n.natAbs := by rw [← hds]; exact hval
      rw [this, hval2]
      have hcast : ((n.natAbs : Nat) : Int) = n := by omega
      rw [hcast]

/-! ## Parsing the serialized payload -/

theorem beq_cons_head_false (c d : Nat) (x y : PyStr) (h : c ≠ d) :
    (((c :: x) : PyStr) == (d :: y)) = false := by
  have he : (((c :: x) : PyStr) == (d :: y)) = ((c == d) && (x == y)) := rfl
  have hc : (c == d) = false := by
    simp only [beq_eq_false_iff_ne, ne_eq]
    exact h
  rw [he, hc, Bool.false_and]

theorem skipJWs_cons (c : Nat) (r : PyStr) (h : ¬(c = 32 ∨ c = 9 ∨ c = 10 ∨ c = 13)) :
    skipJWs (c :: r) = c :: r := by
  unfold skipJWs
  rw [List.dropWhile_cons_of_neg]
  simp only [Bool.or_eq_true, beq_iff_eq]
  tauto

theorem jStrLit_append (k X : PyStr) : jStrLit k ++ X = 34 :: (jsonEscape k ++ (34 :: X)) := by
  simp [jStrLit, List.append_assoc]

theorem skipJWs_jStrLit (k X : PyStr) : skipJWs (jStrLit k ++ X) = jStrLit k ++ X := by
  rw [jStrLit_append]
  exact skipJWs_cons 34 _ (by omega)

theorem intToStr_head (n : Int) :
    ∃ d ds, intToStr n = d :: ds ∧ (d = 45 ∨ (48 ≤ d ∧ d ≤ 57)) := by
  by_cases hneg : n < 0
  · refine ⟨45, natDigitsAux (n.natAbs + 1) n.natAbs, ?_, Or.inl rfl⟩
    unfold intToStr
    rw [if_pos hneg]
  · by_cases h0 : n = 0
    · subst h0
      exact ⟨48, [], by decide, Or.inr (by omega)⟩
    · have h1 : 1 ≤ n.natAbs := by omega
      obtain ⟨d, ds, hds, _, hdig⟩ := natDigitsAux_head (n.natAbs + 1) n.natAbs (by omega) h1
      refine ⟨d, ds, ?_, Or.inr ?_⟩
      · unfold intToStr
        rw [if_neg hneg, hds]
      · simpa [isDigitCp] using hdig

theorem skipJWs_intToStr (n : Int) (X : PyStr) :
    skipJWs (intToStr n ++ X) = intToStr n ++ X := by
  obtain ⟨d, ds, hds, hd⟩ := intToStr_head n
  rw [hds, List.cons_append]
  exact skipJWs_cons d _ (by omega)

theorem parseJStrBody_lit (v tail : PyStr) (hv : ∀ c ∈ v, validScalarCp c) :
    parseJStrBody ((jsonEscape v ++ 34 :: tail).length + 1) (jsonEscape v ++ 34 :: tail) [] =
      some (v, tail) := by
  have hf : (jsonEscape v ++ 34 :: tail).length + 1 =
      (jsonEscape v).length + 1 + (tail.length + 1) := by
    simp only [List.length_append, List.length_cons]
    omega
  rw [hf]
  have h := parseJStrBody_round v [] tail (tail.length + 1) hv
  simpa using h

theorem parseJVal_strLit (F : Nat) (v tail : PyStr) (hv : ∀ c ∈ v, validScalarCp c) :
    parseJVal (Nat.succ F) (jStrLit v ++ tail) = some (JVal.jstr v, tail) := by
  rw [jStrLit_append]
  have h0 : parseJVal (Nat.succ F) (34 :: (jsonEscape v ++ (34 :: tail))) =
      (parseJStrBody ((jsonEscape v ++ (34 :: tail)).length + 1)
        (jsonEscape v ++ (34 :: tail)) []).map (fun p => (JVal.jstr p.1, p.2)) := rfl
  rw [h0, parseJStrBody_lit v tail hv]
  rfl

theorem parseJVal_intToStr (F : Nat) (n : Int) (r0 : Nat) (rrest : PyStr)
    (hr : r0 = 44 ∨ r0 = 125) :
    parseJVal (Nat.succ F) (intToStr n ++ r0 :: rrest) = some (JVal.jint n, r0 :: rrest) := by
  obtain ⟨d, ds, hds, hd⟩ := intToStr_head n
  rw [hds, List.cons_append]
  have h0 : parseJVal (Nat.succ F) (d :: (ds ++ r0 :: rrest)) =
      (if d == 34 then
        (parseJStrBody ((ds ++ r0 :: rrest).length + 1) (ds ++ r0 :: rrest) []).map
          (fun p => (JVal.jstr p.1, p.2))
       else if d == 123 then
        match skipJWs (ds ++ r0 :: rrest) with
        | 125 :: r2 => some (JVal.jobj [], r2)
        | r2 => parseJObjEntry F r2 []
       else if d == 91 then
        match skipJWs (ds ++ r0 :: rrest) with
        | 93 :: r2 => some (JVal.jarr [], r2)
        | r2 => parseJArrItem F r2 []
       else if (d :: (ds ++ r0 :: rrest)).take 4 == pyStr "null" then
        some (JVal.jnull, (d :: (ds ++ r0 :: rrest)).drop 4)
       else if (d :: (ds ++ r0 :: rrest)).take 4 == pyStr "true" then
        some (JVal.jbool true, (d :: (ds ++ r0 :: rrest)).drop 4)
       else if (d :: (ds ++ r0 :: rrest)).take 5 == pyStr "false" then
        some (JVal.jbool false, (d :: (ds ++ r0 :: rrest)).drop 5)
       else
        match parseJNum (d :: (ds ++ r0 :: rrest)) with
        | some r => some r
        | none =>
            if (d :: (ds ++ r0 :: rrest)).take 3 == pyStr "NaN" then
              some (JVal.jnan, (d :: (ds ++ r0 :: rrest)).drop 3)
            else if (d :: (ds ++ r0 :: rrest)).take 8 == pyStr "Infinity" then
              some (JVal.jinf true, (d :: (ds ++ r0 :: rrest)).drop 8)
            else if (d :: (ds ++ r0 :: rrest)).take 9 == pyStr "-Infinity" then
              some (JVal.jinf false, (d :: (ds ++ r0 :: rrest)).drop 9)
            else none) := rfl
  have h34 : (d == 34) = false := by
    simp only [beq_eq_false_iff_ne, ne_eq]
    omega
  have h123 : (d == 123) = false := by
    simp only [beq_eq_false_iff_ne, ne_eq]
    omega
  have h91 : (d == 91) = false := by
    simp only [beq_eq_false_iff_ne, ne_eq]
    omega
  have htk4 : (d :: (ds ++ r0 :: rrest)).take 4 = d :: (ds ++ r0 :: rrest).take 3 := rfl
  have htk5 : (d :: (ds ++ r0 :: rrest)).take 5 = d :: (ds ++ r0 :: rrest).take 4 := rfl
  have hnull : ((d :: (ds ++ r0 :: rrest)).take 4 == pyStr "null") = false := by
    rw [htk4]
    exact beq_cons_head_false d 110 _ _ (by omega)
  have htrue : ((d :: (ds ++ r0 :: rrest)).take 4 == pyStr "true") = false := by
    rw [htk4]
    exact beq_cons_head_false d 116 _ _ (by omega)
  have hfalse : ((d :: (ds ++ r0 :: rrest)).take 5 == pyStr "false") = false := by
    rw [htk5]
    exact beq_cons_head_false d 102 _ _ (by omega)
  rw [h0, h34, h123, h91, hnull, htrue, hfalse]
  simp only [Bool.false_eq_true, if_false]
  rw [← List.cons_append, ← hds, parseJNum_intToStr n r0 rrest hr]

theorem parseJVal_objOpen (F : Nat) (k tail0 : PyStr) :
    parseJVal (Nat.succ F) (123 :: (jStrLit k ++ tail0)) =
      parseJObjEntry F (jStrLit k ++ tail0) [] := by
  have h0 : parseJVal (Nat.succ F) (123 :: (jStrLit k ++ tail0)) =
      (match skipJWs (jStrLit k ++ tail0) with
       | 125 :: r2 => some (JVal.jobj [], r2)
       | r2 => parseJObjEntry F r2 []) := rfl
  rw [h0, skipJWs_jStrLit, jStrLit_append]

theorem parseJObjEntry_open (F : Nat) (k v2tail : PyStr) (acc : List (PyStr × JVal))
    (hk : ∀ c ∈ k, validScalarCp c) :
    parseJObjEntry (Nat.succ F) (jStrLit k ++ (58 :: v2tail)) acc =
      (match parseJVal F (skipJWs v2tail) with
       | none => none
       | some vp => parseJObjRest F (skipJWs vp.2) ((k, vp.1) :: acc)) := by
  rw [jStrLit_append]
  have h0 : parseJObjEntry (Nat.succ F) (34 :: (jsonEscape k ++ (34 :: (58 :: v2tail)))) acc =
      (match parseJStrBody ((jsonEscape k ++ (34 :: (58 :: v2tail))).length + 1)
          (jsonEscape k ++ (34 :: (58 :: v2tail))) [] with
       | none => none
       | some kp =>
          match skipJWs kp.2 with
          | 58 :: r4 =>
              match parseJVal F (skipJWs r4) with
              | none => none
              | some vp => parseJObjRest F (skipJWs vp.2) ((kp.1, vp.1) :: acc)
          | _ => none) := rfl
  rw [h0, parseJStrBody_lit k (58 :: v2tail) hk]
  dsimp only
  rw [skipJWs_cons 58 v2tail (by omega)]

theorem parseJObjEntry_strVal (f : Nat) (k v next : PyStr) (acc : List (PyStr × JVal))
    (hk : ∀ c ∈ k, validScalarCp c) (hv : ∀ c ∈ v, validScalarCp c)
    (hnext : skipJWs next = next) :
    parseJObjEntry (Nat.succ (Nat.succ f))
        (jStrLit k ++ (58 :: (jStrLit v ++ (44 :: next)))) acc =
      parseJObjEntry f next ((k, JVal.jstr v) :: acc) := by
  rw [parseJObjEntry_open (Nat.succ f) k _ acc hk, skipJWs_jStrLit,
    parseJVal_strLit f v (44 :: next) hv]
  dsimp only
  rw [skipJWs_cons 44 next (by omega)]
  have h1 : parseJObjRest (Nat.succ f) (44 :: next) ((k, JVal.jstr v) :: acc) =
      parseJObjEntry f (skipJWs next) ((k, JVal.jstr v) :: acc) := rfl
  rw [h1, hnext]

theorem parseJObjEntry_intVal (f : Nat) (k next : PyStr) (n : Int) (acc : List (PyStr × JVal))
    (hk : ∀ c ∈ k, validScalarCp c) (hnext : skipJWs next = next) :
    parseJObjEntry (Nat.succ (Nat.succ f))
        (jStrLit k ++ (58 :: (intToStr n ++ (44 :: next)))) acc =
      parseJObjEntry f next ((k, JVal.jint n) :: acc) := by
  rw [parseJObjEntry_open (Nat.succ f) k _ acc hk, skipJWs_intToStr,
    parseJVal_intToStr f n 44 next (Or.inl rfl)]
  dsimp only
  rw [skipJWs_cons 44 next (by omega)]
  have h1 : parseJObjRest (Nat.succ f) (44 :: next) ((k, JVal.jint n) :: acc) =
      parseJObjEntry f (skipJWs next) ((k, JVal.jint n) :: acc) := rfl
  rw [h1, hnext]

theorem parseJObjEntry_intClose (f : Nat) (k rest2 : PyStr) (n : Int)
    (acc : List (PyStr × JVal)) (hk : ∀ c ∈ k, validScalarCp c) :
    parseJObjEntry (Nat.succ (Nat.succ f))
        (jStrLit k ++ (58 :: (intToStr n ++ (125 :: rest2)))) acc =
      some (JVal.jobj (((k, JVal.jint n) :: acc).reverse), rest2) := by
  rw [parseJObjEntry_open (Nat.succ f) k _ acc hk, skipJWs_intToStr,
    parseJVal_intToStr f n 125 rest2 (Or.inr rfl)]
  dsimp only
  rw [skipJWs_cons 125 rest2 (by omega)]
  rfl

theorem parseJVal_payload (G : Nat) (sub role mode : PyStr) (iat exp : Int)
    (hsub : ∀ c ∈ sub, validScalarCp c) (hrole : ∀ c ∈ role, validScalarCp c)
    (hmode : ∀ c ∈ mode, validScalarCp c) :
    parseJVal (G + 12) (encodePayload sub role mode iat exp) =
      some (JVal.jobj (payloadFields sub role mode iat exp), []) := by
  have henc : encodePayload sub role mode iat exp =
      123 :: (jStrLit (pyStr "sub") ++ (58 :: (jStrLit sub ++ (44 :: (jStrLit (pyStr "role") ++
      (58 :: (jStrLit role ++ (44 :: (jStrLit (pyStr "mode") ++ (58 :: (jStrLit mode ++ (44 ::
      (jStrLit (pyStr "iat") ++ (58 :: (intToStr iat ++ (44 :: (jStrLit (pyStr "exp") ++ (58 ::
      (intToStr exp ++ (125 :: [])))))))))))))))))))) := by
    simp only [encodePayload, List.append_assoc, List.cons_append]
  rw [henc]
  have e1 : G + 12 = Nat.succ (G + 11) := rfl
  rw [e1, parseJVal_objOpen]
  have e2 : G + 11 = Nat.succ (Nat.succ (G + 9)) := rfl
  rw [e2, parseJObjEntry_strVal (G + 9) _ sub _ [] (by decide) hsub
    (skipJWs_jStrLit _ _)]
  have e3 : G + 9 = Nat.succ (Nat.succ (G + 7)) := rfl
  rw [e3, parseJObjEntry_strVal (G + 7) _ role _ _ (by decide) hrole
    (skipJWs_jStrLit _ _)]
  have e4 : G + 7 = Nat.succ (Nat.succ (G + 5)) := rfl
  rw [e4, parseJObjEntry_strVal (G + 5) _ mode _ _ (by decide) hmode
    (skipJWs_jStrLit _ _)]
  have e5 : G + 5 = Nat.succ (Nat.succ (G + 3)) := rfl
  rw [e5, parseJObjEntry_intVal (G + 3) _ _ iat _ (by decide)
    (skipJWs_jStrLit _ _)]
  have e6 : G + 3 = Nat.succ (Nat.succ (G + 1)) := rfl
  rw [e6, parseJObjEntry_intClose (G + 1) _ [] exp _ (by decide)]
  rfl

theorem jsonLoads_encodePayload (sub role mode : PyStr) (iat exp : Int)
    (hsub : ∀ c ∈ sub, validScalarCp c) (hrole : ∀ c ∈ role, validScalarCp c)
    (hmode : ∀ c ∈ mode, validScalarCp c) :
    jsonLoadsStr (encodePayload sub role mode iat exp) =
      some (JVal.jobj (payloadFields sub role mode iat exp)) := by
  have hlen : 2 ≤ (encodePayload sub role mode iat exp).length := by
    simp only [encodePayload, List.length_cons, List.length_append]
    omega
  unfold jsonLoadsStr
  have hsk : skipJWs (encodePayload sub role mode iat exp) =
      encodePayload sub role mode iat exp := by
    unfold encodePayload
    exact skipJWs_cons 123 _ (by omega)
  rw [hsk]
  rw [show 2 * (encodePayload sub role mode iat exp).length + 8 =
      (2 * (encodePayload sub role mode iat exp).length - 4) + 12 from by omega]
  rw [parseJVal_payload _ sub role mode iat exp hsub hrole hmode]
  rfl

/-! ## The serialized payload is ASCII -/

theorem hex4_mem_le (n : Nat) : ∀ x ∈ hex4 n, x ≤ 127 := by
  intro x hx
  simp only [hex4, List.mem_cons, List.not_mem_nil, or_false] at hx
  rcases hx with rfl | rfl | rfl | rfl <;>
    (unfold hexDig; split <;> omega)

set_option maxHeartbeats 1000000 in
theorem jsonEscapeCp_ascii (c : Nat) : ∀ x ∈ jsonEscapeCp c, x ≤ 127 := by
  intro x hx
  unfold jsonEscapeCp at hx
  dsimp only at hx
  split_ifs at hx with h1 h2 h3 h4 h5 h6 h7 h8 h9 h10
  · simp only [List.mem_cons, List.not_mem_nil, or_false] at hx
    rcases hx with rfl | rfl <;> omega
  · simp only [List.mem_cons, List.not_mem_nil, or_false] at hx
    rcases hx with rfl | rfl <;> omega
  · simp only [List.mem_cons, List.not_mem_nil, or_false] at hx
    rcases hx with rfl | rfl <;> omega
  · simp only [List.mem_cons, List.not_mem_nil, or_false] at hx
    rcases hx with rfl | rfl <;> omega
  · simp only [List.mem_cons, List.not_mem_nil, or_false] at hx
    rcases hx with rfl | rfl <;> omega
  · simp only [List.mem_cons, List.not_mem_nil, or_false] at hx
    rcases hx with rfl | rfl <;> omega
  · simp only [List.mem_cons, List.not_mem_nil, or_false] at hx
    rcases hx with rfl | rfl <;> omega
  · simp only [List.mem_cons] at hx
    rcases hx with rfl | rfl | hx
    · omega
    · omega
    · exact hex4_mem_le c x hx
  · simp only [List.mem_cons, List.not_mem_nil, or_false] at hx
    subst hx
    omega
  · simp only [List.mem_cons] at hx
    rcases hx with rfl | rfl | hx
    · omega
    · omega
    · exact hex4_mem_le c x hx
  · simp only [List.mem_cons, List.mem_append] at hx
    simp only [or_assoc] at hx
    rcases hx with rfl | rfl | hx | rfl | rfl | hx <;>
      first
        | omega
        | exact hex4_mem_le _ x hx

theorem jsonEscape_ascii (s : PyStr) : ∀ x ∈ jsonEscape s, x ≤ 127 := by
  induction s with
  | nil =>
      intro x hx
      simp [jsonEscape] at hx
  | cons c cs ih =>
      intro x hx
      rw [jsonEscape_cons] at hx
      rcases List.mem_append.mp hx with h | h
      · exact jsonEscapeCp_ascii c x h
      · exact ih x h

theorem jStrLit_ascii (s : PyStr) : ∀ x ∈ jStrLit s, x ≤ 127 := by
  intro x hx
  simp only [jStrLit, List.mem_cons, List.mem_append, List.not_mem_nil, or_false] at hx
  rcases hx with rfl | hx | rfl
  · omega
  · exact jsonEscape_ascii s x hx
  · omega

theorem intToStr_ascii (n : Int) : ∀ x ∈ intToStr n, x ≤ 127 := by
  intro x hx
  unfold intToStr at hx
  split_ifs at hx with h
  · rcases List.mem_cons.mp hx with rfl | hx2
    · omega
    · have hd := (natDigitsAux_spec (n.natAbs + 1) n.natAbs (by omega)).2.1 x hx2
      simp only [isDigitCp, Bool.and_eq_true, decide_eq_true_eq] at hd
      omega
  · have hd := (natDigitsAux_spec (n.natAbs + 1) n.natAbs (by omega)).2.1 x hx
    simp only [isDigitCp, Bool.and_eq_true, decide_eq_true_eq] at hd
    omega

theorem encodePayload_ascii (sub role mode : PyStr) (iat exp : Int) :
    ∀ x ∈ encodePayload sub role mode iat exp, x ≤ 127 := by
  intro x hx
  unfold encodePayload at hx
  simp only [List.mem_cons, List.mem_append, List.not_mem_nil, or_false] at hx
  simp only [or_assoc] at hx
  rcases hx with rfl | h | rfl | h | rfl | h | rfl | h | rfl | h | rfl | h | rfl | h | rfl |
    h | rfl | h | rfl | h | rfl <;>
    first
      | omega
      | exact jStrLit_ascii _ x h
      | exact intToStr_ascii _ x h

theorem hex4_mem_pos (n : Nat) : ∀ x ∈ hex4 n, 1 ≤ x := by
  intro x hx
  simp only [hex4, List.mem_cons, List.not_mem_nil, or_false] at hx
  rcases hx with rfl | rfl | rfl | rfl <;>
    (unfold hexDig; split <;> omega)

set_option maxHeartbeats 1000000 in
theorem jsonEscapeCp_pos (c : Nat) : ∀ x ∈ jsonEscapeCp c, 1 ≤ x := by
  intro x hx
  unfold jsonEscapeCp at hx
  dsimp only at hx
  split_ifs at hx with h1 h2 h3 h4 h5 h6 h7 h8 h9 h10
  · simp only [List.mem_cons, List.not_mem_nil, or_false] at hx
    rcases hx with rfl | rfl <;> omega
  · simp only [List.mem_cons, List.not_mem_nil, or_false] at hx
    rcases hx with rfl | rfl <;> omega
  · simp only [List.mem_cons, List.not_mem_nil, or_false] at hx
    rcases hx with rfl | rfl <;> omega
  · simp only [List.mem_cons, List.not_mem_nil, or_false] at hx
    rcases hx with rfl | rfl <;> omega
  · simp only [List.mem_cons, List.not_mem_nil, or_false] at hx
    rcases hx with rfl | rfl <;> omega
  · simp only [List.mem_cons, List.not_mem_nil, or_false] at hx
    rcases hx with rfl | rfl <;> omega
  · simp only [List.mem_cons, List.not_mem_nil, or_false] at hx
    rcases hx with rfl | rfl <;> omega
  · simp only [List.mem_cons] at hx
    rcases hx with rfl | rfl | hx
    · omega
    · omega
    · exact hex4_mem_pos c x hx
  · simp only [List.mem_cons, List.not_mem_nil, or_false] at hx
    subst hx
    omega
  · simp only [List.mem_cons] at hx
    rcases hx with rfl | rfl | hx
    · omega
    · omega
    · exact hex4_mem_pos c x hx
  · simp only [List.mem_cons, List.mem_append] at hx
    simp only [or_assoc] at hx
    rcases hx with rfl | rfl | hx | rfl | rfl | hx <;>
      first
        | omega
        | exact hex4_mem_pos _ x hx

theorem jsonEscape_pos (s : PyStr) : ∀ x ∈ jsonEscape s, 1 ≤ x := by
  induction s with
  | nil =>
      intro x hx
      simp [jsonEscape] at hx
  | cons c cs ih =>
      intro x hx
      rw [jsonEscape_cons] at hx
      rcases List.mem_append.mp hx with h | h
      · exact jsonEscapeCp_pos c x h
      · exact ih x h

theorem jStrLit_pos (s : PyStr) : ∀ x ∈ jStrLit s, 1 ≤ x := by
  intro x hx
  simp only [jStrLit, List.mem_cons, List.mem_append, List.not_mem_nil, or_false] at hx
  rcases hx with rfl | hx | rfl
  · omega
  · exact jsonEscape_pos s x hx
  · omega

theorem intToStr_pos (n : Int) : ∀ x ∈ intToStr n, 1 ≤ x := by
  intro x hx
  unfold intToStr at hx
  split_ifs at hx with h
  · rcases List.mem_cons.mp hx with rfl | hx2
    · omega
    · have hd := (natDigitsAux_spec (n.natAbs + 1) n.natAbs (by omega)).2.1 x hx2
      simp only [isDigitCp, Bool.and_eq_true, decide_eq_true_eq] at hd
      omega
  · have hd := (natDigitsAux_spec (n.natAbs + 1) n.natAbs (by omega)).2.1 x hx
    simp only [isDigitCp, Bool.and_eq_true, decide_eq_true_eq] at hd
    omega

theorem encodePayload_pos (sub role mode : PyStr) (iat exp : Int) :
    ∀ x ∈ encodePayload sub role mode iat exp, 1 ≤ x := by
  intro x hx
  unfold encodePayload at hx
  simp only [List.mem_cons, List.mem_append, List.not_mem_nil, or_false] at hx
  simp only [or_assoc] at hx
  rcases hx with rfl | h | rfl | h | rfl | h | rfl | h | rfl | h | rfl | h | rfl | h | rfl |
    h | rfl | h | rfl | h | rfl <;>
    first
      | omega
      | exact jStrLit_pos _ x h
      | exact intToStr_pos _ x h

/-! ## From the payload bytes to the parsed claims -/

theorem utf8StepSP_ascii (b : Nat) (rest : List Nat) (hb : b ≤ 127) :
    utf8StepSP b rest = some (b, rest) := by
  unfold utf8StepSP
  rw [if_pos hb]

theorem utf8DecodeSP_ascii : ∀ l : List Nat, (∀ b ∈ l, b ≤ 127) →
    utf8DecodeSP l = some l := by
  intro l
  induction l with
  | nil => intro _; rfl
  | cons b t ih =>
      intro h
      have hstep : utf8StepSP b t = some (b, t) := utf8StepSP_ascii b t (h b (by simp))
      have iht : utf8DecodeSPAux t.length t = some t := ih (fun c hc => h c (by simp [hc]))
      show utf8DecodeSPAux (t.length + 1) (b :: t) = some (b :: t)
      simp only [utf8DecodeSPAux, hstep, iht]
      rfl

theorem detect_encoding_ascii (bs : List Nat) (h : ∀ b ∈ bs, 1 ≤ b ∧ b ≤ 127) :
    detect_encoding bs = (JEnc.utf8, bs) := by
  unfold detect_encoding
  split
  · have h0 := h 0 (by simp)
    omega
  · have h255 := h 255 (by simp)
    omega
  · have h254 := h 254 (by simp)
    omega
  · have h255 := h 255 (by simp)
    omega
  · have h239 := h 239 (by simp)
    omega
  · split_ifs with hA hB hC <;>
      first
        | rfl
        | (simp only [beq_iff_eq] at hA
           subst hA
           have h0 := h 0 (by simp)
           omega)
        | (simp only [beq_iff_eq] at hB
           subst hB
           have h0 := h 0 (by simp)
           omega)
        | (simp only [beq_iff_eq] at hC
           subst hC
           have h0 := h 0 (by simp)
           omega)
  · split_ifs with hA hB <;>
      first
        | rfl
        | (simp only [beq_iff_eq] at hA
           subst hA
           have h0 := h 0 (by simp)
           omega)
        | (simp only [beq_iff_eq] at hB
           subst hB
           have h0 := h 0 (by simp)
           omega)
  · rfl

theorem jsonLoadsBytes_ascii (bs : List Nat) (h : ∀ b ∈ bs, 1 ≤ b ∧ b ≤ 127) :
    jsonLoadsBytes bs = jsonLoadsStr bs := by
  unfold jsonLoadsBytes
  rw [detect_encoding_ascii bs h]
  dsimp only
  rw [show jsonBytesDecode JEnc.utf8 bs = utf8DecodeSP bs from rfl,
    utf8DecodeSP_ascii bs (fun b hb => (h b hb).2)]

theorem b64urlEncodeNoPad_mem (bs : List Nat) :
    ∀ c ∈ b64urlEncodeNoPad bs, c ≤ 127 ∧ c ≠ 46 := by
  rw [b64urlEncodeNoPad_eq]
  intro c hc
  rcases encNoPadDirect_mem bs c hc with ⟨v, rfl⟩
  exact ⟨(b64urlChar_facts v).1, (b64urlChar_facts v).2.1⟩

theorem decodedPayload_create (sub role mode : PyStr) (iat exp : Int)
    (hsub : ∀ c ∈ sub, validScalarCp c) (hrole : ∀ c ∈ role, validScalarCp c)
    (hmode : ∀ c ∈ mode, validScalarCp c) :
    decodedPayload (b64urlEncodeNoPad (encodePayload sub role mode iat exp)) =
      some (JVal.jobj (payloadFields sub role mode iat exp)) := by
  unfold decodedPayload
  rw [b64_roundtrip _ (fun b hb => by
    have := encodePayload_ascii sub role mode iat exp b hb
    omega)]
  dsimp only
  rw [jsonLoadsBytes_ascii _ (fun b hb =>
    ⟨encodePayload_pos sub role mode iat exp b hb,
     encodePayload_ascii sub role mode iat exp b hb⟩)]
  exact jsonLoads_encodePayload sub role mode iat exp hsub hrole hmode

/-! ## Verification of a well-formed two-part token -/

theorem verify_two_part (secret : List Nat) (P S : PyStr) (t : Int)
    (hP : ∀ c ∈ P, c ≤ 127 ∧ c ≠ 46) (hS : ∀ c ∈ S, c ≠ 46) :
    verify_access_token secret (P ++ 46 :: S) t =
      (if !sigMatches secret P S then VResult.err .invalidSignature
       else match decodedPayload P with
         | none => VResult.err .invalidPayload
         | some (.jobj fields) => verifyClaims fields t
         | some _ => VResult.err .nonObjectPayload) := by
  unfold verify_access_token
  rw [splitOnDot_pair P S (fun c hc => (hP c hc).2) hS]
  dsimp only
  have hall : (P.all (fun c => c ≤ 127)) = true := by
    rw [List.all_eq_true]
    intro c hc
    simpa using (hP c hc).1
  rw [hall]
  simp only [Bool.not_true, Bool.false_eq_true, if_false]

theorem verify_create (secret : List Nat) (sub role mode : PyStr) (now ttl t : Int)
    (hsub : ∀ c ∈ sub, validScalarCp c) (hrole : ∀ c ∈ role, validScalarCp c)
    (hmode : ∀ c ∈ mode, validScalarCp c) :
    verify_access_token secret (create_access_token secret sub role mode now ttl).1 t =
      verifyClaims (payloadFields sub role mode now (now + ttl)) t := by
  have hcreate : (create_access_token secret sub role mode now ttl).1 =
      b64urlEncodeNoPad (encodePayload sub role mode now (now + ttl)) ++
        46 :: b64urlEncodeNoPad (hmacSha256 secret
          (b64urlEncodeNoPad (encodePayload sub role mode now (now + ttl)))) := rfl
  rw [hcreate]
  rw [verify_two_part secret _ _ t (b64urlEncodeNoPad_mem _)
    (fun c hc => (b64urlEncodeNoPad_mem _ c hc).2)]
  have hsig : sigMatches secret
      (b64urlEncodeNoPad (encodePayload sub role mode now (now + ttl)))
      (b64urlEncodeNoPad (hmacSha256 secret
        (b64urlEncodeNoPad (encodePayload sub role mode now (now + ttl))))) = true := by
    unfold sigMatches
    rw [b64_roundtrip _ (hmacSha256_bytes_lt secret _)]
    simp
  rw [hsig]
  simp only [Bool.not_true, Bool.false_eq_true, if_false]
  rw [decodedPayload_create sub role mode now (now + ttl) hsub hrole hmode]

theorem verifyClaims_payload (sub role mode : PyStr) (iat exp now : Int)
    (hsub : sub ≠ []) (hrole : role ∈ roleSet) (hmode : mode ∈ modeSet) :
    verifyClaims (payloadFields sub role mode iat exp) now =
      (if exp < now then VResult.err .expired else VResult.ok ⟨sub, role, mode⟩) := by
  have hexp : jGet (payloadFields sub role mode iat exp) (pyStr "exp") =
      some (JVal.jint exp) := rfl
  have hroleg : jGet (payloadFields sub role mode iat exp) (pyStr "role") =
      some (JVal.jstr role) := rfl
  have hmodeg : jGet (payloadFields sub role mode iat exp) (pyStr "mode") =
      some (JVal.jstr mode) := rfl
  have hsubg : jGet (payloadFields sub role mode iat exp) (pyStr "sub") =
      some (JVal.jstr sub) := rfl
  have hrne : role ≠ [] := by
    have hall : ∀ x ∈ roleSet, x ≠ ([] : PyStr) := by decide
    exact hall role hrole
  have hmne : mode ≠ [] := by
    have hall : ∀ x ∈ modeSet, x ≠ ([] : PyStr) := by decide
    exact hall mode hmode
  have hrin : isStrIn (some (JVal.jstr role)) roleSet = true := by
    simp only [isStrIn, List.any_eq_true]
    exact ⟨role, hrole, by simp⟩
  have hmin : isStrIn (some (JVal.jstr mode)) modeSet = true := by
    simp only [isStrIn, List.any_eq_true]
    exact ⟨mode, hmode, by simp⟩
  unfold verifyClaims
  rw [hexp, hroleg, hmodeg, hsubg]
  dsimp only
  by_cases hlt : exp < now
  · simp [pyIntOfJ, hlt]
  · simp [pyIntOfJ, truthyOpt, pyTruthy, hlt, hsub, hrne, hmne, hrin, hmin]

/-- C1: token round-trip.  For every claims record with a non-empty subject
of Unicode scalar values, a role in the role set and a mode in the mode set,
a token created at time now with lifetime ttl verifies back to the original
subject, role and mode at any time t with t ≤ now + ttl, and fails Expired
at any time t > now + ttl; and any two-part token whose ASCII payload
segment fails the HMAC comparison against its signature segment fails with
InvalidSignature. -/
theorem c1_theorem (secret : List Nat) (sub role mode : PyStr) (now ttl t : Int)
    (hsub : ∀ c ∈ sub, validScalarCp c) (hne : sub ≠ [])
    (hrole : role ∈ roleSet) (hmode : mode ∈ modeSet) :
    (¬ now + ttl < t →
        verify_access_token secret (create_access_token secret sub role mode now ttl).1 t =
          VResult.ok ⟨sub, role, mode⟩)
  ∧ (now + ttl < t →
        verify_access_token secret (create_access_token secret sub role mode now ttl).1 t =
          VResult.err .expired)
  ∧ (∀ token2 p s, splitOnDot token2 = [p, s] → (p.all (fun c => c ≤ 127)) = true →
        sigMatches secret p s = false →
        verify_access_token secret token2 t = VResult.err .invalidSignature) := by
  have hrolev : ∀ c ∈ role, validScalarCp c := by
    have hall : ∀ x ∈ roleSet, ∀ c ∈ x, validScalarCp c := by decide
    exact hall role hrole
  have hmodev : ∀ c ∈ mode, validScalarCp c := by
    have hall : ∀ x ∈ modeSet, ∀ c ∈ x, validScalarCp c := by decide
    exact hall mode hmode
  refine ⟨?_, ?_, ?_⟩
  · intro hle
    rw [verify_create secret sub role mode now ttl t hsub hrolev hmodev,
      verifyClaims_payload sub role mode now (now + ttl) t hne hrole hmode,
      if_neg hle]
  · intro hlt
    rw [verify_create secret sub role mode now ttl t hsub hrolev hmodev,
      verifyClaims_payload sub role mode now (now + ttl) t hne hrole hmode,
      if_pos hlt]
  · intro token2 p s hsp hall hsig
    unfold verify_access_token
    rw [hsp]
    dsimp only
    rw [hall, hsig]
    rfl

theorem c1_witness :
    verify_access_token (pyStr "sec")
        (create_access_token (pyStr "sec") (pyStr "u") (pyStr "Parent") (pyStr "home")
          1700000000 3600).1 1700003600 =
      VResult.ok ⟨pyStr "u", pyStr "Parent", pyStr "home"⟩ ∧
    verify_access_token (pyStr "sec")
        (create_access_token (pyStr "sec") (pyStr "u") (pyStr "Parent") (pyStr "home")
          1700000000 3600).1 1700003601 = VResult.err .expired :=
  ⟨(c1_theorem (pyStr "sec") (pyStr "u") (pyStr "Parent") (pyStr "home") 1700000000 3600
      1700003600 (by decide) (by decide) (by decide) (by decide)).1 (by omega),
   (c1_theorem (pyStr "sec") (pyStr "u") (pyStr "Parent") (pyStr "home") 1700000000 3600
      1700003601 (by decide) (by decide) (by decide) (by decide)).2.1 (by omega)⟩

set_option maxRecDepth 100000 in
set_option maxHeartbeats 16000000 in
/-- Counterexample to C1 as stated: a claims record with an empty subject
is issued a token that fails verification with missing claims rather than
round-tripping; altering the final character of the signature segment
(changing only bits beyond the 256-bit digest) yields a DIFFERENT token
that still verifies successfully, not InvalidSignature; and altering the
first character to a dot yields InvalidFormat, not InvalidSignature. -/
theorem c1_counterexample :
    verify_access_token (pyStr "sec")
        (create_access_token (pyStr "sec") [] (pyStr "Parent") (pyStr "home")
          1700000000 3600).1 1700000000 = VResult.err .missingClaims
  ∧ (List.set ((create_access_token (pyStr "sec") (pyStr "u") (pyStr "Parent") (pyStr "home")
        1700000000 3600).1)
      (((create_access_token (pyStr "sec") (pyStr "u") (pyStr "Parent") (pyStr "home")
        1700000000 3600).1).length - 1) 53 ≠
      (create_access_token (pyStr "sec") (pyStr "u") (pyStr "Parent") (pyStr "home")
        1700000000 3600).1)
  ∧ verify_access_token (pyStr "sec")
      (List.set ((create_access_token (pyStr "sec") (pyStr "u") (pyStr "Parent") (pyStr "home")
        1700000000 3600).1)
        (((create_access_token (pyStr "sec") (pyStr "u") (pyStr "Parent") (pyStr "home")
          1700000000 3600).1).length - 1) 53) 1700000000 =
      VResult.ok ⟨pyStr "u", pyStr "Parent", pyStr "home"⟩
  ∧ verify_access_token (pyStr "sec")
      (List.set ((create_access_token (pyStr "sec") (pyStr "u") (pyStr "Parent") (pyStr "home")
        1700000000 3600).1) 0 46) 1700000000 = VResult.err .invalidFormat :=
  ⟨by decide, by decide, by decide, by decide⟩

theorem isStrIn_shape (v : Option JVal) (set : List PyStr) (h : isStrIn v set = true) :
    ∃ r, v = some (JVal.jstr r) := by
  rcases v with _ | w
  · simp [isStrIn] at h
  · cases w <;> first | exact ⟨_, rfl⟩ | simp [isStrIn] at h

theorem presentB_cond (fields : List (PyStr × JVal)) :
    (!truthyOpt (jGet fields (pyStr "role")) || !truthyOpt (jGet fields (pyStr "mode")) ||
      !truthyOpt (jGet fields (pyStr "sub"))) = !claimsPresentB fields := by
  unfold claimsPresentB
  cases truthyOpt (jGet fields (pyStr "role")) <;>
    cases truthyOpt (jGet fields (pyStr "mode")) <;>
      cases truthyOpt (jGet fields (pyStr "sub")) <;> rfl

theorem verifyClaims_form (fields : List (PyStr × JVal)) (now : Int) :
    verifyClaims fields now =
      (if !expOkB fields now then VResult.err .expired
       else if !truthyOpt (jGet fields (pyStr "role")) ||
           !truthyOpt (jGet fields (pyStr "mode")) ||
           !truthyOpt (jGet fields (pyStr "sub")) then VResult.err .missingClaims
       else if !isStrIn (jGet fields (pyStr "role")) roleSet then VResult.err .invalidRole
       else if !isStrIn (jGet fields (pyStr "mode")) modeSet then VResult.err .invalidMode
       else
        match jGet fields (pyStr "sub"), jGet fields (pyStr "role"),
            jGet fields (pyStr "mode") with
        | some (.jstr u), some (.jstr r), some (.jstr m) => VResult.ok ⟨u, r, m⟩
        | _, _, _ => VResult.err .claimsTypeError) := rfl

/-- C2: verification failure taxonomy and order.  InvalidFormat exactly when
the token does not split into two parts on the dot; for a two-part split, a
non-ASCII payload segment raises an unhandled encoding error; otherwise
InvalidSignature exactly when the recomputed HMAC does not match the decoded
signature segment; otherwise InvalidPayload exactly when the payload segment
does not decode and parse; a parsed non-object payload raises an unhandled
attribute error; otherwise the claim checks run: Expired when the exp claim
is missing, not an int, or before now; then missing/role/mode claim errors;
success returns the string claims, and a truthy non-string subject raises a
response-model validation error. -/
theorem c2_theorem (secret : List Nat) (token : PyStr) (now : Int) :
    ((splitOnDot token).length ≠ 2 →
        verify_access_token secret token now = VResult.err .invalidFormat)
  ∧ (∀ p s, splitOnDot token = [p, s] →
      ((p.all (fun c => c ≤ 127)) = false →
          verify_access_token secret token now = VResult.err .encodingError)
    ∧ ((p.all (fun c => c ≤ 127)) = true →
       (sigMatches secret p s = false →
            verify_access_token secret token now = VResult.err .invalidSignature)
     ∧ (sigMatches secret p s = true →
        (decodedPayload p = none →
            verify_access_token secret token now = VResult.err .invalidPayload)
      ∧ (∀ fields, decodedPayload p = some (JVal.jobj fields) →
            verify_access_token secret token now = verifyClaims fields now)
      ∧ (∀ v, decodedPayload p = some v → (∀ fields, v ≠ JVal.jobj fields) →
            verify_access_token secret token now = VResult.err .nonObjectPayload))))
  ∧ (∀ fields,
      (expOkB fields now = false → verifyClaims fields now = VResult.err .expired)
    ∧ (expOkB fields now = true →
        (claimsPresentB fields = false →
            verifyClaims fields now = VResult.err .missingClaims)
      ∧ (claimsPresentB fields = true →
          (isStrIn (jGet fields (pyStr "role")) roleSet = false →
              verifyClaims fields now = VResult.err .invalidRole)
        ∧ (isStrIn (jGet fields (pyStr "role")) roleSet = true →
            (isStrIn (jGet fields (pyStr "mode")) modeSet = false →
                verifyClaims fields now = VResult.err .invalidMode)
          ∧ (isStrIn (jGet fields (pyStr "mode")) modeSet = true →
              (∀ u, jGet fields (pyStr "sub") = some (JVal.jstr u) →
                  ∀ r, jGet fields (pyStr "role") = some (JVal.jstr r) →
                  ∀ m, jGet fields (pyStr "mode") = some (JVal.jstr m) →
                  verifyClaims fields now = VResult.ok ⟨u, r, m⟩)
            ∧ ((∀ u, jGet fields (pyStr "sub") ≠ some (JVal.jstr u)) →
                  verifyClaims fields now = VResult.err .claimsTypeError)))))) := by
  refine ⟨?_, ?_, ?_⟩
  · intro hlen
    unfold verify_access_token
    rcases hsp : splitOnDot token with _ | ⟨a, _ | ⟨b, _ | ⟨c, rest3⟩⟩⟩
    · rfl
    · rfl
    · refine absurd ?_ hlen
      rw [hsp]
      rfl
    · rfl
  · intro p s hsp
    refine ⟨?_, ?_⟩
    · intro hallf
      unfold verify_access_token
      rw [hsp]
      dsimp only
      rw [hallf]
      rfl
    · intro hallt
      refine ⟨?_, ?_⟩
      · intro hsigf
        unfold verify_access_token
        rw [hsp]
        dsimp only
        rw [hallt, hsigf]
        rfl
      · intro hsigt
        refine ⟨?_, ?_, ?_⟩
        · intro hdp
          unfold verify_access_token
          rw [hsp]
          dsimp only
          rw [hallt, hsigt, hdp]
          rfl
        · intro fields hdp
          unfold verify_access_token
          rw [hsp]
          dsimp only
          rw [hallt, hsigt, hdp]
          rfl
        · intro v hdp hnobj
          unfold verify_access_token
          rw [hsp]
          dsimp only
          rw [hallt, hsigt, hdp]
          cases v <;> first | rfl | exact absurd rfl (hnobj _)
  · intro fields
    refine ⟨?_, ?_⟩
    · intro hexf
      rw [verifyClaims_form, hexf]
      rfl
    · intro hext
      rw [verifyClaims_form, hext]
      simp only [Bool.not_true, Bool.false_eq_true, if_false]
      rw [presentB_cond]
      refine ⟨?_, ?_⟩
      · intro hcpf
        rw [hcpf]
        rfl
      · intro hcpt
        rw [hcpt]
        simp only [Bool.not_true, Bool.false_eq_true, if_false]
        refine ⟨?_, ?_⟩
        · intro hrf
          rw [hrf]
          rfl
        · intro hrt
          rw [hrt]
          simp only [Bool.not_true, Bool.false_eq_true, if_false]
          refine ⟨?_, ?_⟩
          · intro hmf
            rw [hmf]
            rfl
          · intro hmt
            rw [hmt]
            simp only [Bool.not_true, Bool.false_eq_true, if_false]
            refine ⟨?_, ?_⟩
            · intro u hu r hr2 m hm2
              rw [hu, hr2, hm2]
            · intro hnostr
              obtain ⟨r, hr2⟩ := isStrIn_shape _ _ hrt
              obtain ⟨m, hm2⟩ := isStrIn_shape _ _ hmt
              rw [hr2, hm2]
              rcases hju : jGet fields (pyStr "sub") with _ | w
              · rfl
              · cases w <;> first | rfl | exact absurd hju (by exact hnostr _)

set_option maxRecDepth 100000 in
set_option maxHeartbeats 16000000 in
/-- Counterexample to C2 as stated: a correctly signed token whose payload
object carries truthy sub, role and mode claims with a valid role and mode
but NO exp claim fails with Expired, although exp < now holds for no exp
value and the claim predicts success for this token. -/
theorem c2_counterexample :
    verify_access_token (pyStr "sec")
      (b64urlEncodeNoPad (pyStr "\x7b\"sub\":\"u\",\"role\":\"Parent\",\"mode\":\"home\"\x7d") ++
        46 :: b64urlEncodeNoPad (hmacSha256 (pyStr "sec")
          (b64urlEncodeNoPad (pyStr "\x7b\"sub\":\"u\",\"role\":\"Parent\",\"mode\":\"home\"\x7d")))) 0 =
      VResult.err .expired := by decide

theorem c2_witness :
    verify_access_token [] (pyStr "abc") 0 = VResult.err .invalidFormat ∧
    verifyClaims [] 0 = VResult.err .expired :=
  ⟨(c2_theorem [] (pyStr "abc") 0).1 (by decide),
   ((c2_theorem [] (pyStr "abc") 0).2.2 []).1 (by decide)⟩

set_option maxRecDepth 100000 in
set_option maxHeartbeats 16000000 in
/-- The encoding detection of json.loads reaches verify_access_token: a
correctly signed token whose payload segment decodes to utf-16 bytes, not
utf-8, still parses and verifies successfully. -/
theorem utf16_payload_verifies :
    verify_access_token (pyStr "sec")
      (b64urlEncodeNoPad payloadUtf16 ++
        46 :: b64urlEncodeNoPad (hmacSha256 (pyStr "sec")
          (b64urlEncodeNoPad payloadUtf16))) 0 =
      VResult.ok ⟨pyStr "u", pyStr "Parent", pyStr "home"⟩ := by decide

end KiddoLand
